import Mathlib

/-!
Shallow embedding of the openwurli measurement and scoring pipeline.

The definitions below are translated from the Python sources:
- src/ml/score_isolation.py    (isolation scoring)
- src/ml/compute_residuals.py  (residual targets and dataset assembly)
- src/ml/extract_harmonics.py  (decay sub-record of the feature extractor)
- src/ml/goertzel_utils.py     (FFT-based batch harmonic extraction)

Python floats are modelled as real numbers; nullable values (None or NaN)
are modelled as Option; Python string tags stay strings.  Definitions named
with a spec suffix follow the wording of spec.md and exist only to be
compared with the code-derived definitions.
-/

namespace Wurli

open Real

noncomputable section
open Classical

/-! ## score_isolation.py -/

/-- NoteEvent record as consumed by score_isolation.py. -/
structure Note where
  id : String
  onset_s : ℝ
  offset_s : ℝ
  midi_note : ℝ
  amplitude : ℝ
  velocity_midi : ℤ
  source_file : String
  source_type : Option String

/-- decay_remaining_amplitude from score_isolation.py: remaining amplitude
fraction of a released note after time_since_offset_s seconds. -/
def decay_remaining_amplitude (midi_note : ℝ) (time_since_offset_s : ℝ) : ℝ :=
  if time_since_offset_s ≤ 0 then 1.0
  else
    let decay_rate := 0.26 * Real.exp (0.049 * midi_note)
    let decay_dB := decay_rate * time_since_offset_s
    (10 : ℝ) ^ (-decay_dB / 20 : ℝ)

/-- Per-note subtraction step of score_temporal (body of its loop). -/
def temporalStep (target : Note) (window_start_s window_end_s : ℝ)
    (acc : ℝ) (other : Note) : ℝ :=
  if other.id = target.id then acc
  else if other.source_file ≠ target.source_file then acc
  else if other.onset_s < window_end_s ∧ other.offset_s > window_start_s then
    let rel_amp := other.amplitude / max target.amplitude 1e-6
    if rel_amp > 0.1 then acc - 0.10 * min rel_amp 1.0 else acc
  else if other.offset_s < window_start_s then
    let time_since_release := window_start_s - other.offset_s
    let remaining := decay_remaining_amplitude other.midi_note time_since_release
    let rel_energy := remaining * other.amplitude / max target.amplitude 1e-6
    if rel_energy > 0.1 then acc - 0.10 * min rel_energy 1.0 else acc
  else acc

/-- score_temporal from score_isolation.py. -/
def score_temporal (target : Note) (all_notes : List Note)
    (window_start_s window_end_s : ℝ) : ℝ :=
  max 0.05 (all_notes.foldl (temporalStep target window_start_s window_end_s) 1.0)

/-- midi_to_freq from goertzel_utils.py. -/
def midi_to_freq (midi_note : ℝ) : ℝ :=
  440.0 * (2 : ℝ) ^ ((midi_note - 69) / 12 : ℝ)

/-- Collision predicate of harmonic_collision_check: two frequencies collide
when their ratio is under 2 to the power 50/1200 (about 50 cents). -/
def collides (f1 f2 : ℝ) : Prop :=
  max f1 f2 / max (min f1 f2) 1e-6 < (2 : ℝ) ^ ((50 : ℝ) / 1200 : ℝ)

/-- Harmonic h of the target stays clean when no harmonic of any concurrent
note collides with it (the loop in harmonic_collision_check breaks on the
first collision; absence of a break is exactly this predicate). -/
def harmonicClean (target_f0 : ℝ) (concurrent_midis : List ℝ) (h : ℕ) : Prop :=
  ∀ m ∈ concurrent_midis, ∀ k ∈ List.range 8,
    ¬ collides (target_f0 * (h + 1)) (midi_to_freq m * (k + 1))

/-- Per-harmonic clean mask of harmonic_collision_check, at the pipeline
value n_harmonics = 8 (the only value used). -/
def collisionMask (target_f0 : ℝ) (concurrent_midis : List ℝ) : List Bool :=
  (List.range 8).map fun h => decide (harmonicClean target_f0 concurrent_midis h)

/-- Harmonic weights of harmonic_collision_check: H1-H4 doubled. -/
def WEIGHTS : List ℝ := [2.0, 2.0, 2.0, 2.0, 1.0, 1.0, 1.0, 1.0]

/-- harmonic_collision_check from score_isolation.py.  Returns the weighted
clean fraction and the mask. -/
def harmonic_collision_check (target_midi : ℝ) (concurrent_midis : List ℝ) :
    ℝ × List Bool :=
  (((WEIGHTS.zip (collisionMask (midi_to_freq target_midi) concurrent_midis)).filterMap
      fun p => if p.2 then some p.1 else none).sum / WEIGHTS.sum,
   collisionMask (midi_to_freq target_midi) concurrent_midis)

/-- Concurrency test of score_harmonic_collision: the other note either
overlaps the window or has released but keeps over 5 percent of its
amplitude after decay. -/
def hasEnergy (other : Note) (window_start_s window_end_s : ℝ) : Prop :=
  (other.onset_s < window_end_s ∧ other.offset_s > window_start_s) ∨
  (¬ (other.onset_s < window_end_s ∧ other.offset_s > window_start_s) ∧
    other.offset_s < window_start_s ∧
    decay_remaining_amplitude other.midi_note (window_start_s - other.offset_s) *
      other.amplitude > 0.05)

/-- Concurrent-note midi list gathered by score_harmonic_collision. -/
def concurrentMidis (target : Note) (all_notes : List Note)
    (window_start_s window_end_s : ℝ) : List ℝ :=
  all_notes.filterMap fun other =>
    if other.id = target.id then none
    else if other.source_file ≠ target.source_file then none
    else if hasEnergy other window_start_s window_end_s then some other.midi_note
    else none

/-- score_harmonic_collision from score_isolation.py. -/
def score_harmonic_collision (target : Note) (all_notes : List Note)
    (window_start_s window_end_s : ℝ) : ℝ × List Bool :=
  if concurrentMidis target all_notes window_start_s window_end_s = [] then
    (1.0, List.replicate 8 true)
  else
    harmonic_collision_check target.midi_note
      (concurrentMidis target all_notes window_start_s window_end_s)

/-- Per-note energy contribution step of score_energy_dominance. -/
def dominanceStep (target : Note) (window_start_s window_end_s : ℝ)
    (acc : ℝ) (other : Note) : ℝ :=
  if other.id = target.id then acc
  else if other.source_file ≠ target.source_file then acc
  else if other.onset_s < window_end_s ∧ other.offset_s > window_start_s then
    acc + other.amplitude
  else if other.offset_s < window_start_s then
    let window_mid := (window_start_s + window_end_s) / 2
    let remaining :=
      decay_remaining_amplitude other.midi_note (window_mid - other.offset_s)
    acc + remaining * other.amplitude
  else acc

/-- score_energy_dominance from score_isolation.py. -/
def score_energy_dominance (target : Note) (all_notes : List Note)
    (window_start_s window_end_s : ℝ) : ℝ :=
  if all_notes.foldl (dominanceStep target window_start_s window_end_s)
      target.amplitude < 1e-10 then 1.0
  else target.amplitude /
    all_notes.foldl (dominanceStep target window_start_s window_end_s)
      target.amplitude

/-- score_duration from score_isolation.py. -/
def score_duration (duration_s : ℝ) : ℝ :=
  if duration_s < 0.150 then 0
  else if duration_s < 0.300 then 0.3
  else if duration_s < 0.600 then 0.7
  else 1.0

/-- compute_composite_score from score_isolation.py. -/
def compute_composite_score (temporal collision dominance duration : ℝ) : ℝ :=
  if collision ≤ 0 ∨ duration ≤ 0 then 0
  else
    Real.exp (0.35 * Real.log collision +
              0.20 * Real.log (max temporal 0.05) +
              0.20 * Real.log (max dominance 0.05) +
              0.25 * Real.log duration)

/-- tier_from_score from score_isolation.py. -/
def tier_from_score (score : ℝ) : String :=
  if score ≥ 0.85 then "gold"
  else if score ≥ 0.55 then "silver"
  else if score ≥ 0.15 then "bronze"
  else "reject"

/-! ## Theorems for the composite score and the duration sub-score -/

/-- C3: with nonnegative collision and duration sub-scores, the composite is
exactly 0 when collision = 0 or duration = 0, and otherwise equals the
weighted geometric mean with temporal and dominance floored at 0.05; in the
latter case the composite is strictly positive, so a zero temporal or
dominance sub-score never by itself produces composite 0. -/
theorem composite_veto_and_floor (temporal collision dominance duration : ℝ)
    (hc : 0 ≤ collision) (hd : 0 ≤ duration) :
    ((collision = 0 ∨ duration = 0) →
      compute_composite_score temporal collision dominance duration = 0) ∧
    (collision ≠ 0 → duration ≠ 0 →
      compute_composite_score temporal collision dominance duration =
        Real.exp (0.35 * Real.log collision +
                  0.20 * Real.log (max temporal 0.05) +
                  0.20 * Real.log (max dominance 0.05) +
                  0.25 * Real.log duration) ∧
      0 < compute_composite_score temporal collision dominance duration) := by
  constructor
  · intro h
    unfold compute_composite_score
    rcases h with h | h <;> simp [h]
  · intro hcne hdne
    have hcpos : ¬ (collision ≤ 0 ∨ duration ≤ 0) := by
      push_neg
      exact ⟨lt_of_le_of_ne hc (Ne.symm hcne), lt_of_le_of_ne hd (Ne.symm hdne)⟩
    unfold compute_composite_score
    rw [if_neg hcpos]
    exact ⟨rfl, Real.exp_pos _⟩

/-- Witness for composite_veto_and_floor at concrete sub-scores. -/
theorem composite_veto_and_floor_witness :
    compute_composite_score 0.5 0 0.5 1 = 0 ∧
    0 < compute_composite_score 0 1 0 1 := by
  constructor
  · exact (composite_veto_and_floor 0.5 0 0.5 1 (by norm_num) (by norm_num)).1
      (Or.inl rfl)
  · exact ((composite_veto_and_floor 0 1 0 1 (by norm_num) (by norm_num)).2
      (by norm_num) (by norm_num)).2

/-- C5 counterexample: a note of duration exactly 150 ms has duration
sub-score 0.3, not 0 — the veto branch of score_duration applies only to
durations strictly below 150 ms. -/
theorem duration_at_150ms_not_vetoed :
    score_duration 0.150 = 0.3 ∧ score_duration 0.150 ≠ 0 := by
  unfold score_duration
  norm_num

/-- C5 amended: a duration of exactly 150 ms scores 0.3 (the band from
150 ms inclusive to 300 ms exclusive scores 0.3), 151 ms scores 0.3, and
only durations strictly below 150 ms score 0 (the veto). -/
theorem duration_step_function :
    score_duration 0.150 = 0.3 ∧ score_duration 0.151 = 0.3 ∧
    (∀ d : ℝ, d < 0.150 → score_duration d = 0) := by
  refine ⟨?_, ?_, ?_⟩
  · unfold score_duration; norm_num
  · unfold score_duration; norm_num
  · intro d hd
    unfold score_duration
    rw [if_pos hd]

/-- Witness for duration_step_function at a concrete short duration. -/
theorem duration_step_function_witness :
    score_duration 0.1 = 0 :=
  duration_step_function.2.2 0.1 (by norm_num)

/-! ## compute_residuals.py -/

/-- Per-window harmonic measurements of a HarmonicFeatureRecord; entries are
nullable (None in the JSON encodes NaN or a masked harmonic). -/
structure WindowData where
  amps_linear : List (Option ℝ)
  amps_dB_rel_H1 : List (Option ℝ)
  freqs_hz : List (Option ℝ)

/-- HarmonicFeatureRecord as consumed by compute_residuals.py; the windows
dict is modelled by one optional field per fixed window name. -/
structure FeatureRecord where
  id : String
  midi_note : ℤ
  velocity_midi : ℤ
  isolation_tier : String
  attack : Option WindowData
  early_sustain : Option WindowData
  sustain : Option WindowData

/-- SNR threshold constant SNR_THRESHOLD_DB from compute_residuals.py. -/
def SNR_THRESHOLD_DB : ℝ := 10.0

/-- MAX_RELIABLE_HARMONIC from compute_residuals.py: only H2 and H3 targets
(0-indexed into H2-H6 target space) are potentially reliable. -/
def MAX_RELIABLE_HARMONIC : ℕ := 2

/-- detect_anomalous_harmonics from compute_residuals.py, as the membership
predicate of the returned set: index h (in H2-H8 target space) is anomalous
when the loop over h in range(1, min(len(real_dB)-1, 7)) finds real_dB[h+1]
and real_dB[h] both non-null with the higher harmonic strictly louder.  The
bound h+1 < min len 8 restates h < min (len-1) 7 over the naturals. -/
def anomalous (real_dB : List (Option ℝ)) (h : ℕ) : Prop :=
  1 ≤ h ∧ h + 1 < min real_dB.length 8 ∧
  match real_dB.getD (h + 1) none, real_dB.getD h none with
  | some a, some b => a > b
  | _, _ => False

/-- SNR gate of compute_note_residual: the check is skipped when snr_db is
None or the index is out of range; a NaN entry (modelled none) fails, and a
value below SNR_THRESHOLD_DB fails. -/
def snrOK (snr_db : Option (List (Option ℝ))) (h_idx : ℕ) : Prop :=
  match snr_db with
  | none => True
  | some l =>
    h_idx < l.length →
      match l.getD h_idx none with
      | none => False
      | some s => ¬ s < SNR_THRESHOLD_DB

/-- Window selection of compute_note_residual: primary early_sustain on both
sides, else sustain on both sides, else no usable window. -/
def chosenWindows (rf mf : FeatureRecord) : Option (WindowData × WindowData) :=
  match rf.early_sustain, mf.early_sustain with
  | some rw, some mw => some (rw, mw)
  | _, _ =>
    match rf.sustain, mf.sustain with
    | some rw, some mw => some (rw, mw)
    | _, _ => none

/-- Validity of the frequency-offset target at index h (harmonic H_h+2): the
sequential continue statements of the loop amount to this conjunction. -/
def freqValid (rw mw : WindowData) (snr_db : Option (List (Option ℝ)))
    (h : ℕ) : Prop :=
  ∃ rfq mfq : ℝ,
    rw.freqs_hz.getD (h + 1) none = some rfq ∧
    mw.freqs_hz.getD (h + 1) none = some mfq ∧
    0 < rfq ∧ 0 < mfq ∧ h < MAX_RELIABLE_HARMONIC ∧
    snrOK snr_db (h + 1) ∧ ¬ anomalous rw.amps_dB_rel_H1 h

/-- Frequency-offset value in cents at index h: 1200 * log2(real/model). -/
def freqTarget (rw mw : WindowData) (h : ℕ) : ℝ :=
  match rw.freqs_hz.getD (h + 1) none, mw.freqs_hz.getD (h + 1) none with
  | some rfq, some mfq => 1200 * Real.logb 2 (rfq / mfq)
  | _, _ => 0

/-- Validity of the decay-offset target at index 5+h: both records carry both
sustain windows, all four H_h+2 amplitudes are non-null and above 1e-12, the
SNR gate passes and the harmonic is not anomalous. -/
def decayValid (rf mf : FeatureRecord) (real_dB : List (Option ℝ))
    (snr_db : Option (List (Option ℝ))) (h : ℕ) : Prop :=
  h < min MAX_RELIABLE_HARMONIC 5 ∧
  ∃ rew rsw mew msw,
    rf.early_sustain = some rew ∧ rf.sustain = some rsw ∧
    mf.early_sustain = some mew ∧ mf.sustain = some msw ∧
    ∃ re rs me ms : ℝ,
      rew.amps_linear.getD (h + 1) none = some re ∧
      rsw.amps_linear.getD (h + 1) none = some rs ∧
      mew.amps_linear.getD (h + 1) none = some me ∧
      msw.amps_linear.getD (h + 1) none = some ms ∧
      1e-12 < re ∧ 1e-12 < rs ∧ 1e-12 < me ∧ 1e-12 < ms ∧
      snrOK snr_db (h + 1) ∧ ¬ anomalous real_dB h

/-- Decay-offset value at index 5+h: (real sustain/early) over (model
sustain/early) amplitude quotients for harmonic H_h+2. -/
def decayTarget (rf mf : FeatureRecord) (h : ℕ) : ℝ :=
  match rf.early_sustain, rf.sustain, mf.early_sustain, mf.sustain with
  | some rew, some rsw, some mew, some msw =>
    match rew.amps_linear.getD (h + 1) none, rsw.amps_linear.getD (h + 1) none,
          mew.amps_linear.getD (h + 1) none, msw.amps_linear.getD (h + 1) none with
    | some re, some rs, some me, some ms => (rs / re) / (ms / me)
    | _, _, _, _ => 0
  | _, _, _, _ => 0

/-- Validity of the displacement-scale target at index 10: both H2
dB-relative-to-H1 values non-null, H2 SNR gate passes, H2 not anomalous. -/
def dsValid (rw mw : WindowData) (snr_db : Option (List (Option ℝ))) : Prop :=
  ∃ a b : ℝ,
    rw.amps_dB_rel_H1.getD 1 none = some a ∧
    mw.amps_dB_rel_H1.getD 1 none = some b ∧
    snrOK snr_db 1 ∧ ¬ anomalous rw.amps_dB_rel_H1 0

/-- Displacement-scale value at index 10: 2 to the power (delta/6) with
delta = real H2 dB minus model H2 dB (the corrected, positive sign). -/
def dsTarget (rw mw : WindowData) : ℝ :=
  match rw.amps_dB_rel_H1.getD 1 none, mw.amps_dB_rel_H1.getD 1 none with
  | some a, some b => (2 : ℝ) ^ ((a - b) / 6 : ℝ)
  | _, _ => 0

/-- Validity mask of compute_note_residual, one entry per target index. -/
def residualMask (rf mf : FeatureRecord) (snr_db : Option (List (Option ℝ)))
    (i : ℕ) : Prop :=
  match chosenWindows rf mf with
  | none => False
  | some (rw, mw) =>
    if i < 5 then freqValid rw mw snr_db i
    else if i < 10 then decayValid rf mf rw.amps_dB_rel_H1 snr_db (i - 5)
    else if i = 10 then dsValid rw mw snr_db
    else False

/-- Target value of compute_note_residual at a valid index. -/
def residualValue (rf mf : FeatureRecord) (rw mw : WindowData) (i : ℕ) : ℝ :=
  if i < 5 then freqTarget rw mw i
  else if i < 10 then decayTarget rf mf (i - 5)
  else dsTarget rw mw

/-- compute_note_residual from compute_residuals.py: the 11-element target
vector (none encodes the NaN of an unset entry) and validity mask. -/
def compute_note_residual (rf mf : FeatureRecord)
    (snr_db : Option (List (Option ℝ))) : (ℕ → Option ℝ) × (ℕ → Prop) :=
  (fun i =>
    match chosenWindows rf mf with
    | none => none
    | some (rw, mw) =>
      if residualMask rf mf snr_db i then some (residualValue rf mf rw mw i)
      else none,
   residualMask rf mf snr_db)

/-- VELOCITY_BUCKETS from render_model_notes.py. -/
def VELOCITY_BUCKETS : List ℤ := [20, 35, 50, 65, 80, 95, 110, 127]

/-- bucket_velocity from render_model_notes.py: the Python min with an
absolute-distance key keeps the first bucket of minimal distance; the fold
replaces the running best only on strictly smaller distance. -/
def bucket_velocity (velocity_midi : ℤ) : ℤ :=
  VELOCITY_BUCKETS.foldl
    (fun best b => if |b - velocity_midi| < |best - velocity_midi| then b else best)
    20

/-- TIER_WEIGHTS lookup with the 0.3 default of assemble_dataset. -/
def tierWeight (tier : String) : ℝ :=
  if tier = "gold" then 1.0
  else if tier = "silver" then 0.6
  else if tier = "bronze" then 0.3
  else 0.3

/-- Model-record key string built by assemble_dataset. -/
def modelKey (rf : FeatureRecord) : String :=
  toString rf.midi_note ++ "_" ++ toString (bucket_velocity rf.velocity_midi)

/-- One row of the assembled training dataset (NaN targets zero-filled). -/
structure DatasetRow where
  input_midi : ℝ
  input_vel : ℝ
  targets : ℕ → ℝ
  mask : ℕ → Prop
  weight : ℝ

/-- SNR lookup of assemble_dataset: with a cache present, a missing note id
yields None, which disables SNR filtering for that note. -/
def assembleSnr (snr_cache : Option (String → Option (List (Option ℝ))))
    (note_id : String) : Option (List (Option ℝ)) :=
  match snr_cache with
  | none => none
  | some c => c note_id

/-- assemble_dataset from compute_residuals.py: real observations matched to
a model record by key; an observation with an all-false mask is skipped. -/
def assemble_dataset (real_features : List FeatureRecord)
    (model_features : String → Option FeatureRecord)
    (snr_cache : Option (String → Option (List (Option ℝ)))) : List DatasetRow :=
  real_features.filterMap fun rf =>
    match model_features (modelKey rf) with
    | none => none
    | some mf =>
      if ∃ i, i < 11 ∧
          (compute_note_residual rf mf (assembleSnr snr_cache rf.id)).2 i then
        some { input_midi := ((rf.midi_note : ℝ) - 21) / (108 - 21)
               input_vel := (rf.velocity_midi : ℝ) / 127
               targets := fun i =>
                 ((compute_note_residual rf mf (assembleSnr snr_cache rf.id)).1 i).getD 0
               mask := (compute_note_residual rf mf (assembleSnr snr_cache rf.id)).2
               weight := tierWeight rf.isolation_tier }
      else none

/-- Shape of the target component once the window pair is resolved. -/
lemma residual_fst (rf mf : FeatureRecord) (snr_db : Option (List (Option ℝ)))
    (rw mw : WindowData) (hwin : chosenWindows rf mf = some (rw, mw)) (i : ℕ) :
    (compute_note_residual rf mf snr_db).1 i =
      if residualMask rf mf snr_db i then some (residualValue rf mf rw mw i)
      else none := by
  show (match chosenWindows rf mf with
    | none => none
    | some (rw, mw) =>
      if residualMask rf mf snr_db i then some (residualValue rf mf rw mw i)
      else none) = _
  rw [hwin]

/-- Shape of the mask once the window pair is resolved. -/
lemma residual_mask_win (rf mf : FeatureRecord)
    (snr_db : Option (List (Option ℝ))) (rw mw : WindowData)
    (hwin : chosenWindows rf mf = some (rw, mw)) (i : ℕ) :
    residualMask rf mf snr_db i =
      (if i < 5 then freqValid rw mw snr_db i
       else if i < 10 then decayValid rf mf rw.amps_dB_rel_H1 snr_db (i - 5)
       else if i = 10 then dsValid rw mw snr_db
       else False) := by
  unfold residualMask
  rw [hwin]

/-! ## Theorems about the residual targets and the dataset -/

/-- C1: for a matched pair whose chosen windows both carry a non-null H2
dB-relative-to-H1 value, the index-10 mask entry is true exactly when the
H2 SNR gate passes and no H2 anomaly flag is set, and in that case the
index-10 target is 2 to the power (delta/6) with delta = real minus model
H2 dB (positive exponent sign). -/
theorem ds_target_formula (rf mf : FeatureRecord)
    (snr_db : Option (List (Option ℝ))) (rw mw : WindowData)
    (hwin : chosenWindows rf mf = some (rw, mw)) (a b : ℝ)
    (ha : rw.amps_dB_rel_H1.getD 1 none = some a)
    (hb : mw.amps_dB_rel_H1.getD 1 none = some b) :
    ((compute_note_residual rf mf snr_db).2 10 ↔
      (snrOK snr_db 1 ∧ ¬ anomalous rw.amps_dB_rel_H1 0)) ∧
    ((compute_note_residual rf mf snr_db).2 10 →
      (compute_note_residual rf mf snr_db).1 10 =
        some ((2 : ℝ) ^ ((a - b) / 6 : ℝ))) := by
  have hmask : (compute_note_residual rf mf snr_db).2 10 = dsValid rw mw snr_db := by
    show residualMask rf mf snr_db 10 = _
    rw [residual_mask_win rf mf snr_db rw mw hwin 10]
    norm_num
  constructor
  · rw [hmask]
    constructor
    · rintro ⟨x, y, hx, hy, hs, hn⟩
      exact ⟨hs, hn⟩
    · rintro ⟨hs, hn⟩
      exact ⟨a, b, ha, hb, hs, hn⟩
  · intro hm
    have hm10 : residualMask rf mf snr_db 10 := hm
    rw [residual_fst rf mf snr_db rw mw hwin 10, if_pos hm10]
    have hval : residualValue rf mf rw mw 10 = dsTarget rw mw := by
      unfold residualValue
      norm_num
    rw [hval]
    unfold dsTarget
    rw [ha, hb]

/-- C9: the anomaly detector never flags index 0 (H2), since its loop starts
at the H3-versus-H2 comparison; consequently the displacement-scale target
is invalid exactly when no usable window pair exists, an H2 dB value is
null, or the H2 SNR gate fails. -/
theorem h2_never_anomalous :
    (∀ real_dB : List (Option ℝ), ¬ anomalous real_dB 0) ∧
    (∀ (rf mf : FeatureRecord) (snr_db : Option (List (Option ℝ))),
      (¬ (compute_note_residual rf mf snr_db).2 10) ↔
        (chosenWindows rf mf = none ∨
          ∃ rw mw, chosenWindows rf mf = some (rw, mw) ∧
            (rw.amps_dB_rel_H1.getD 1 none = none ∨
             mw.amps_dB_rel_H1.getD 1 none = none ∨
             ¬ snrOK snr_db 1))) := by
  have hanom : ∀ real_dB : List (Option ℝ), ¬ anomalous real_dB 0 := by
    rintro l ⟨h1, _⟩
    omega
  refine ⟨hanom, ?_⟩
  intro rf mf snr_db
  cases hwin : chosenWindows rf mf with
  | none =>
    have hmask : ¬ (compute_note_residual rf mf snr_db).2 10 := by
      show ¬ residualMask rf mf snr_db 10
      unfold residualMask
      rw [hwin]
      exact id
    exact ⟨fun _ => Or.inl rfl, fun _ => hmask⟩
  | some p =>
    obtain ⟨rw, mw⟩ := p
    have hmask : (compute_note_residual rf mf snr_db).2 10 = dsValid rw mw snr_db := by
      show residualMask rf mf snr_db 10 = _
      rw [residual_mask_win rf mf snr_db rw mw hwin 10]
      norm_num
    rw [hmask]
    constructor
    · intro hnv
      refine Or.inr ⟨rw, mw, rfl, ?_⟩
      cases hra : rw.amps_dB_rel_H1.getD 1 none with
      | none => exact Or.inl rfl
      | some a =>
        cases hmb : mw.amps_dB_rel_H1.getD 1 none with
        | none => exact Or.inr (Or.inl rfl)
        | some b =>
          refine Or.inr (Or.inr ?_)
          intro hs
          exact hnv ⟨a, b, hra, hmb, hs, hanom _⟩
    · rintro (hcontra | ⟨rw2, mw2, heq, hdis⟩)
      · exact absurd hcontra (by simp)
      · rw [Option.some.injEq, Prod.mk.injEq] at heq
        obtain ⟨h1, h2⟩ := heq
        subst h1
        subst h2
        rintro ⟨a, b, ha, hb, hs, _⟩
        rcases hdis with hd | hd | hd
        · rw [ha] at hd; exact absurd hd (by simp)
        · rw [hb] at hd; exact absurd hd (by simp)
        · exact hd hs

/-- C4: the frequency-offset targets for H4-H6 (indices 2-4) are always
invalid; for indices 0 and 1 the mask is true exactly when both measured
frequencies are non-null and positive, the SNR gate for that harmonic
passes (a NaN SNR fails) and the harmonic is not anomalous, and then the
target is 1200 * log2(real/model); and a failing H2 SNR gate also
invalidates the displacement-scale target at index 10. -/
theorem freq_targets (rf mf : FeatureRecord)
    (snr_db : Option (List (Option ℝ))) :
    (∀ h : ℕ, 2 ≤ h → h ≤ 4 → ¬ (compute_note_residual rf mf snr_db).2 h) ∧
    (∀ rw mw, chosenWindows rf mf = some (rw, mw) → ∀ h : ℕ, h < 2 →
      (((compute_note_residual rf mf snr_db).2 h) ↔
        (∃ rfq mfq : ℝ,
          rw.freqs_hz.getD (h + 1) none = some rfq ∧
          mw.freqs_hz.getD (h + 1) none = some mfq ∧
          0 < rfq ∧ 0 < mfq ∧ snrOK snr_db (h + 1) ∧
          ¬ anomalous rw.amps_dB_rel_H1 h)) ∧
      (∀ rfq mfq : ℝ, rw.freqs_hz.getD (h + 1) none = some rfq →
        mw.freqs_hz.getD (h + 1) none = some mfq →
        (compute_note_residual rf mf snr_db).2 h →
        (compute_note_residual rf mf snr_db).1 h =
          some (1200 * Real.logb 2 (rfq / mfq)))) ∧
    (¬ snrOK snr_db 1 → ¬ (compute_note_residual rf mf snr_db).2 10) := by
  refine ⟨?_, ?_, ?_⟩
  · intro h h2 h4
    show ¬ residualMask rf mf snr_db h
    cases hwin : chosenWindows rf mf with
    | none =>
      unfold residualMask
      rw [hwin]
      exact id
    | some p =>
      obtain ⟨rw, mw⟩ := p
      rw [residual_mask_win rf mf snr_db rw mw hwin h]
      have h5 : h < 5 := by omega
      rw [if_pos h5]
      rintro ⟨rfq, mfq, _, _, _, _, hlt, _, _⟩
      unfold MAX_RELIABLE_HARMONIC at hlt
      omega
  · intro rw mw hwin h hlt2
    have hmask : (compute_note_residual rf mf snr_db).2 h =
        freqValid rw mw snr_db h := by
      show residualMask rf mf snr_db h = _
      rw [residual_mask_win rf mf snr_db rw mw hwin h]
      have h5 : h < 5 := by omega
      rw [if_pos h5]
    constructor
    · rw [hmask]
      constructor
      · rintro ⟨rfq, mfq, hr, hm, hpr, hpm, _, hs, hn⟩
        exact ⟨rfq, mfq, hr, hm, hpr, hpm, hs, hn⟩
      · rintro ⟨rfq, mfq, hr, hm, hpr, hpm, hs, hn⟩
        exact ⟨rfq, mfq, hr, hm, hpr, hpm, by unfold MAX_RELIABLE_HARMONIC; omega, hs, hn⟩
    · intro rfq mfq hr hm hmk
      have hm2 : residualMask rf mf snr_db h := hmk
      rw [residual_fst rf mf snr_db rw mw hwin h, if_pos hm2]
      unfold residualValue
      have h5 : h < 5 := by omega
      rw [if_pos h5]
      unfold freqTarget
      rw [hr, hm]
  · intro hsnr
    show ¬ residualMask rf mf snr_db 10
    cases hwin : chosenWindows rf mf with
    | none =>
      unfold residualMask
      rw [hwin]
      exact id
    | some p =>
      obtain ⟨rw, mw⟩ := p
      rw [residual_mask_win rf mf snr_db rw mw hwin 10]
      norm_num
      rintro ⟨a, b, _, _, hs, _⟩
      exact hsnr hs

/-- C2: every row of the assembled dataset has at least one valid mask
entry; an observation whose mask is entirely false is dropped. -/
theorem dataset_rows_have_valid_entry (real_features : List FeatureRecord)
    (model_features : String → Option FeatureRecord)
    (snr_cache : Option (String → Option (List (Option ℝ))))
    (row : DatasetRow)
    (hrow : row ∈ assemble_dataset real_features model_features snr_cache) :
    ∃ i, i < 11 ∧ row.mask i := by
  unfold assemble_dataset at hrow
  rw [List.mem_filterMap] at hrow
  obtain ⟨rf, _, heq⟩ := hrow
  cases hmk : model_features (modelKey rf) with
  | none => rw [hmk] at heq; exact absurd heq (by simp)
  | some mf =>
    rw [hmk] at heq
    dsimp only at heq
    by_cases hif : ∃ i, i < 11 ∧
        (compute_note_residual rf mf (assembleSnr snr_cache rf.id)).2 i
    · rw [if_pos hif] at heq
      injection heq with heq2
      obtain ⟨i, hi, hm⟩ := hif
      refine ⟨i, hi, ?_⟩
      rw [← heq2]
      exact hm
    · rw [if_neg hif] at heq
      exact absurd heq (by simp)

/-! ## Concrete records for evaluating the residual pipeline -/

/-- Example real-side window: H1 at 0 dB and 440 Hz, H2 at 6 dB relative to
H1 and 881 Hz. -/
def exWinReal : WindowData :=
  { amps_linear := []
    amps_dB_rel_H1 := [some 0, some 6]
    freqs_hz := [some 440, some 881] }

/-- Example model-side window: H2 at 0 dB relative to H1 and 880 Hz. -/
def exWinModel : WindowData :=
  { amps_linear := []
    amps_dB_rel_H1 := [some 0, some 0]
    freqs_hz := [some 440, some 880] }

/-- Example real observation record. -/
def exReal : FeatureRecord :=
  { id := "n1", midi_note := 69, velocity_midi := 80, isolation_tier := "gold"
    attack := none, early_sustain := some exWinReal, sustain := none }

/-- Example model record under key 69_80. -/
def exModel : FeatureRecord :=
  { id := "m69", midi_note := 69, velocity_midi := 80, isolation_tier := "gold"
    attack := none, early_sustain := some exWinModel, sustain := none }

/-- Example model-record lookup table. -/
def exModelMap : String → Option FeatureRecord :=
  fun k => if k = "69_80" then some exModel else none

/-- Example SNR array with H2 SNR of 5 dB, below the 10 dB threshold. -/
def exSnr : Option (List (Option ℝ)) := some [some 99, some 5]

/-- Witness for ds_target_formula: with real H2 at 6 dB and model H2 at 0 dB
and no SNR filtering, index 10 is valid with value 2 to the power 1 = 2. -/
theorem ds_target_formula_witness :
    (compute_note_residual exReal exModel none).2 10 ∧
    (compute_note_residual exReal exModel none).1 10 = some 2 := by
  have hwin : chosenWindows exReal exModel = some (exWinReal, exWinModel) := rfl
  have ha : exWinReal.amps_dB_rel_H1.getD 1 none = some 6 := rfl
  have hb : exWinModel.amps_dB_rel_H1.getD 1 none = some 0 := rfl
  have h := ds_target_formula exReal exModel none exWinReal exWinModel hwin 6 0 ha hb
  have hnoanom : ¬ anomalous exWinReal.amps_dB_rel_H1 0 := by
    rintro ⟨h1, -⟩
    exact absurd h1 (by norm_num)
  have hsnr : snrOK none 1 := trivial
  have hmask := h.1.mpr ⟨hsnr, hnoanom⟩
  refine ⟨hmask, ?_⟩
  rw [h.2 hmask]
  have h6 : ((6 : ℝ) - 0) / 6 = 1 := by norm_num
  rw [h6, Real.rpow_one]

/-- Witness for freq_targets: index 2 is always invalid, and with H2 SNR of
5 dB both the H2 frequency-offset target and the displacement-scale target
are invalid. -/
theorem freq_targets_witness :
    ¬ (compute_note_residual exReal exModel exSnr).2 2 ∧
    ¬ (compute_note_residual exReal exModel exSnr).2 0 ∧
    ¬ (compute_note_residual exReal exModel exSnr).2 10 := by
  have h := freq_targets exReal exModel exSnr
  have hsnrfail : ¬ snrOK exSnr 1 := by
    intro hs
    simp only [exSnr, snrOK, SNR_THRESHOLD_DB] at hs
    norm_num at hs
  refine ⟨h.1 2 (by norm_num) (by norm_num), ?_, h.2.2 hsnrfail⟩
  intro hm
  have hiff := (h.2.1 exWinReal exWinModel rfl 0 (by norm_num)).1
  obtain ⟨rfq, mfq, -, -, -, -, hs, -⟩ := hiff.mp hm
  exact hsnrfail hs

/-- Row emitted for the example records with SNR filtering disabled. -/
def exRow : DatasetRow :=
  { input_midi := ((exReal.midi_note : ℝ) - 21) / (108 - 21)
    input_vel := (exReal.velocity_midi : ℝ) / 127
    targets := fun i =>
      ((compute_note_residual exReal exModel (assembleSnr none exReal.id)).1 i).getD 0
    mask := (compute_note_residual exReal exModel (assembleSnr none exReal.id)).2
    weight := tierWeight exReal.isolation_tier }

/-- The example dataset evaluates to exactly one row. -/
lemma exDataset_eval : assemble_dataset [exReal] exModelMap none = [exRow] := by
  have hmask10 : (compute_note_residual exReal exModel
      (assembleSnr none exReal.id)).2 10 := by
    show residualMask exReal exModel none 10
    rw [residual_mask_win exReal exModel none exWinReal exWinModel rfl 10]
    norm_num
    refine ⟨6, 0, rfl, rfl, trivial, ?_⟩
    rintro ⟨h1, -⟩
    exact absurd h1 (by norm_num)
  have hex : ∃ i, i < 11 ∧ (compute_note_residual exReal exModel
      (assembleSnr none exReal.id)).2 i := ⟨10, by norm_num, hmask10⟩
  have hkey : exModelMap (modelKey exReal) = some exModel := by
    have hk : modelKey exReal = "69_80" := by decide
    rw [hk]
    rfl
  unfold assemble_dataset
  simp only [List.filterMap_cons, List.filterMap_nil]
  rw [hkey]
  dsimp only
  rw [if_pos hex]
  rfl

/-- Witness for dataset_rows_have_valid_entry at the example records. -/
theorem dataset_rows_have_valid_entry_witness :
    ∃ i, i < 11 ∧ exRow.mask i := by
  have hmem : exRow ∈ assemble_dataset [exReal] exModelMap none := by
    rw [exDataset_eval]
    exact List.mem_singleton.mpr rfl
  exact dataset_rows_have_valid_entry [exReal] exModelMap none exRow hmem

/-! ## goertzel_utils.py: extract_harmonics_fft -/

/-- Frequency axis of np.fft.rfftfreq: bin k maps to k*sr/nfft Hz. -/
def freqsAxis (sr : ℝ) (nfft : ℕ) (k : ℕ) : ℝ := k * sr / nfft

/-- First-maximum selection of np.argmax over a nonempty list of bin
indices (the running best is replaced only on a strictly larger value). -/
def argmaxBin (spectrum : ℕ → ℝ) : List ℕ → ℕ
  | [] => 0
  | k :: ks => ks.foldl (fun best j => if spectrum j > spectrum best then j else best) k

/-- extract_harmonics_fft from goertzel_utils.py.  The magnitude of the
rfft of the Hann-windowed, 4x zero-padded signal (np.abs of np.fft.rfft, a
library routine external to the repository) is abstracted as the function
rfftMag from bin index to magnitude; the repository code normalizes it by
2/N/0.5 and searches a plus-minus search_pct window around each harmonic
for the peak bin, returning (amplitude, frequency) pairs for H1..Hn. -/
def extract_harmonics_fft (rfftMag : ℕ → ℝ) (N : ℕ) (sr f0 : ℝ)
    (n_harmonics : ℕ) (search_pct : ℝ) : List (ℝ × ℝ) :=
  (List.range n_harmonics).map fun (h : ℕ) =>
    if f0 * ((h : ℝ) + 1) ≥ sr / 2 - 100 then (1e-20, f0 * ((h : ℝ) + 1))
    else
      match (List.range (N * 4 / 2 + 1)).filter fun (k : ℕ) =>
          decide (freqsAxis sr (N * 4) k ≥ f0 * ((h : ℝ) + 1) * (1 - search_pct)) &&
          decide (freqsAxis sr (N * 4) k ≤ f0 * ((h : ℝ) + 1) * (1 + search_pct)) with
      | [] => (1e-20, f0 * ((h : ℝ) + 1))
      | k :: ks =>
        ((fun j => rfftMag j * 2 / N / 0.5) (argmaxBin (fun j => rfftMag j * 2 / N / 0.5) (k :: ks)),
         freqsAxis sr (N * 4) (argmaxBin (fun j => rfftMag j * 2 / N / 0.5) (k :: ks)))

/-- The argmax fold stays within the candidate list. -/
lemma argmaxBin_mem (spectrum : ℕ → ℝ) (k : ℕ) (ks : List ℕ) :
    argmaxBin spectrum (k :: ks) ∈ k :: ks := by
  have hgen : ∀ (l : List ℕ) (a : ℕ),
      l.foldl (fun best j => if spectrum j > spectrum best then j else best) a ∈ a :: l := by
    intro l
    induction l with
    | nil => intro a; simp
    | cons x xs ih =>
      intro a
      simp only [List.foldl_cons]
      by_cases hx : spectrum x > spectrum a
      · rw [if_pos hx]
        exact List.mem_cons_of_mem a (ih x)
      · rw [if_neg hx]
        rcases List.mem_cons.mp (ih a) with h | h
        · exact List.mem_cons.mpr (Or.inl h)
        · exact List.mem_cons.mpr (Or.inr (List.mem_cons.mpr (Or.inr h)))
  exact hgen ks k

/-- C10: at the default search width of 1 percent, the batch harmonic
extractor returns for harmonic h either exactly the nominal frequency
f0*(h+1) with the floor amplitude 1e-20 (the near-Nyquist and empty-window
branches), or a refined frequency within plus-minus 1 percent of the
nominal harmonic. -/
theorem fft_freq_within_one_percent (rfftMag : ℕ → ℝ) (N : ℕ) (sr f0 : ℝ)
    (n_harmonics h : ℕ) (hh : h < n_harmonics) (hf0 : 0 < f0) :
    (((extract_harmonics_fft rfftMag N sr f0 n_harmonics 0.01).getD h (0, 0)).2 =
        f0 * (h + 1) ∧
      ((extract_harmonics_fft rfftMag N sr f0 n_harmonics 0.01).getD h (0, 0)).1 =
        1e-20) ∨
    (0.99 * (f0 * (h + 1)) ≤
        ((extract_harmonics_fft rfftMag N sr f0 n_harmonics 0.01).getD h (0, 0)).2 ∧
      ((extract_harmonics_fft rfftMag N sr f0 n_harmonics 0.01).getD h (0, 0)).2 ≤
        1.01 * (f0 * (h + 1))) := by
  have hres : (extract_harmonics_fft rfftMag N sr f0 n_harmonics 0.01).getD h (0, 0) =
      (if f0 * (h + 1) ≥ sr / 2 - 100 then ((1e-20 : ℝ), f0 * (h + 1))
       else
        match (List.range (N * 4 / 2 + 1)).filter fun k =>
            decide (freqsAxis sr (N * 4) k ≥ f0 * (h + 1) * (1 - 0.01)) &&
            decide (freqsAxis sr (N * 4) k ≤ f0 * (h + 1) * (1 + 0.01)) with
        | [] => ((1e-20 : ℝ), f0 * (h + 1))
        | k :: ks =>
          ((fun j => rfftMag j * 2 / N / 0.5)
             (argmaxBin (fun j => rfftMag j * 2 / N / 0.5) (k :: ks)),
           freqsAxis sr (N * 4)
             (argmaxBin (fun j => rfftMag j * 2 / N / 0.5) (k :: ks)))) := by
    unfold extract_harmonics_fft
    rw [List.getD_eq_getElem?_getD, List.getElem?_map, List.getElem?_range hh]
    rfl
  rw [hres]
  by_cases hnyq : f0 * (h + 1) ≥ sr / 2 - 100
  · rw [if_pos hnyq]
    exact Or.inl ⟨rfl, rfl⟩
  · rw [if_neg hnyq]
    cases hflt : (List.range (N * 4 / 2 + 1)).filter fun k =>
        decide (freqsAxis sr (N * 4) k ≥ f0 * (h + 1) * (1 - 0.01)) &&
        decide (freqsAxis sr (N * 4) k ≤ f0 * (h + 1) * (1 + 0.01)) with
    | nil => exact Or.inl ⟨rfl, rfl⟩
    | cons k ks =>
      refine Or.inr ?_
      dsimp only
      have hpk2 : argmaxBin (fun j => rfftMag j * 2 / N / 0.5) (k :: ks) ∈
          (List.range (N * 4 / 2 + 1)).filter fun k =>
            decide (freqsAxis sr (N * 4) k ≥ f0 * ((h : ℝ) + 1) * (1 - 0.01)) &&
            decide (freqsAxis sr (N * 4) k ≤ f0 * ((h : ℝ) + 1) * (1 + 0.01)) := by
        rw [hflt]
        exact argmaxBin_mem (fun j => rfftMag j * 2 / N / 0.5) k ks
      have hcond := (List.mem_filter.mp hpk2).2
      rw [Bool.and_eq_true, decide_eq_true_eq, decide_eq_true_eq] at hcond
      constructor
      · linarith [hcond.1]
      · linarith [hcond.2]

/-- Witness for fft_freq_within_one_percent at a concrete configuration. -/
theorem fft_freq_within_one_percent_witness :
    (((extract_harmonics_fft (fun _ => 0) 128 44100 440 8 0.01).getD 0 (0, 0)).2 =
        440 * (0 + 1) ∧
      ((extract_harmonics_fft (fun _ => 0) 128 44100 440 8 0.01).getD 0 (0, 0)).1 =
        1e-20) ∨
    (0.99 * (440 * (0 + 1)) ≤
        ((extract_harmonics_fft (fun _ => 0) 128 44100 440 8 0.01).getD 0 (0, 0)).2 ∧
      ((extract_harmonics_fft (fun _ => 0) 128 44100 440 8 0.01).getD 0 (0, 0)).2 ≤
        1.01 * (440 * (0 + 1))) := by
  have h := fft_freq_within_one_percent (fun _ => 0) 128 44100 440 8 0
    (by norm_num) (by norm_num)
  norm_num at h ⊢
  exact h

/-! ## extract_harmonics.py: decay sub-record -/

/-- DECAY_TIMES from extract_harmonics.py. -/
def DECAY_TIMES : List ℝ := [0.1, 0.3, 0.5, 0.8, 1.0, 1.5]

/-- Python round(x, nd) as round-half-up on the reals; Python rounds half
to even, and the two agree everywhere except exactly at midpoints. -/
def pyRound (nd : ℕ) (x : ℝ) : ℝ := (round (x * 10 ^ nd) : ℤ) / 10 ^ nd

/-- One decay sample of extract_note_features at offset t: meas abstracts
the H1 extraction call on note_audio[start:end] (FFT or Goertzel path); a
sample is None when t is within 50 ms of note end or the clipped window has
under 64 samples, and is otherwise the measured H1 amplitude rounded to 8
decimals.  Python int truncation of the index products is the floor (the
offsets and sample rate are positive). -/
def decaySample (meas : ℤ → ℤ → ℝ) (sr : ℝ) (audioLen : ℤ) (duration_s : ℝ)
    (t : ℝ) : Option ℝ :=
  if t ≥ duration_s - 0.05 then none
  else if min ⌊(t + 0.100) * sr⌋ audioLen - ⌊t * sr⌋ < 64 then none
  else some (pyRound 8 (meas ⌊t * sr⌋ (min ⌊(t + 0.100) * sr⌋ audioLen)))

/-- Decay-sample list of extract_note_features over the 6 fixed offsets. -/
def decayAmps (meas : ℤ → ℤ → ℝ) (sr : ℝ) (audioLen : ℤ)
    (duration_s : ℝ) : List (Option ℝ) :=
  DECAY_TIMES.map (decaySample meas sr audioLen duration_s)

/-- Valid fit points of extract_note_features: non-null samples with
amplitude above 1e-15, paired with their offsets. -/
def validDecayPoints (amps : List (Option ℝ)) : List (ℝ × ℝ) :=
  (DECAY_TIMES.zip amps).filterMap fun p =>
    match p.2 with
    | some a => if a > 1e-15 then some (p.1, a) else none
    | none => none

/-- Ordinary-least-squares slope of a degree-1 fit (np.polyfit deg 1). -/
def olsSlope (pts : List (ℝ × ℝ)) : ℝ :=
  ((pts.length : ℝ) * (pts.map fun p => p.1 * p.2).sum -
    (pts.map Prod.fst).sum * (pts.map Prod.snd).sum) /
  ((pts.length : ℝ) * (pts.map fun p => p.1 * p.1).sum -
    (pts.map Prod.fst).sum * (pts.map Prod.fst).sum)

/-- Population variance of a list, the square of np.std. -/
def listVar (l : List ℝ) : ℝ :=
  ((l.map fun x => (x - l.sum / l.length) ^ 2).sum) / l.length

/-- Fitted decay rate of extract_note_features: None unless at least 3
valid points exist and the offsets have positive spread (np.std > 0), else
-20 times the OLS slope of log10(amplitude) against time, rounded to 2
decimals. -/
def decay_rate_dB_s (meas : ℤ → ℤ → ℝ) (sr : ℝ) (audioLen : ℤ)
    (duration_s : ℝ) : Option ℝ :=
  if 3 ≤ (validDecayPoints (decayAmps meas sr audioLen duration_s)).length then
    if 0 < listVar ((validDecayPoints (decayAmps meas sr audioLen duration_s)).map Prod.fst) then
      some (pyRound 2 (-20 * olsSlope
        ((validDecayPoints (decayAmps meas sr audioLen duration_s)).map fun p =>
          (p.1, Real.logb 10 p.2))))
    else none
  else none

/-- With a constant measurement on a 2 s note at 44100 Hz, every one of the
6 decay samples is recorded (none is null). -/
lemma decayAmps_const (c : ℝ) :
    decayAmps (fun _ _ => c) 44100 88200 2 = List.replicate 6 (some (pyRound 8 c)) := by
  unfold decayAmps DECAY_TIMES decaySample
  norm_num [List.replicate]

/-- C8 counterexample: with silent audio (every measured H1 amplitude is 0)
on a 2 s note, all 6 decay samples are non-null, yet the fitted decay rate
is null — the fit requires at least 3 points with amplitude above 1e-15,
not merely 3 non-null samples. -/
theorem decay_rate_null_despite_samples :
    ((decayAmps (fun _ _ => 0) 44100 88200 2).all fun a => a.isSome) = true ∧
    decay_rate_dB_s (fun _ _ => 0) 44100 88200 2 = none := by
  have hpr : pyRound 8 (0 : ℝ) = 0 := by
    unfold pyRound
    norm_num
  have hamps := decayAmps_const 0
  rw [hpr] at hamps
  constructor
  · rw [hamps]
    simp
  · unfold decay_rate_dB_s
    rw [hamps]
    have hvp : validDecayPoints (List.replicate 6 (some (0 : ℝ))) = [] := by
      unfold validDecayPoints DECAY_TIMES
      norm_num [List.replicate, List.zip_cons_cons, List.filterMap_cons]
    rw [hvp]
    norm_num

/-- The offsets of the valid fit points form a sublist of the offsets they
were zipped from. -/
lemma validPoints_fst_sublist (zs : List (ℝ × Option ℝ)) :
    ((zs.filterMap fun p =>
        match p.2 with
        | some a => if a > 1e-15 then some (p.1, a) else none
        | none => none).map Prod.fst).Sublist (zs.map Prod.fst) := by
  induction zs with
  | nil => simp
  | cons z t ih =>
    rcases z with ⟨tz, oz⟩
    cases oz with
    | none =>
      simp only [List.filterMap_cons]
      exact (List.map_cons Prod.fst (tz, none) t) ▸ ih.cons tz
    | some a =>
      by_cases ha : a > 1e-15
      · simp only [List.filterMap_cons, if_pos ha, List.map_cons]
        exact ih.cons₂ tz
      · simp only [List.filterMap_cons, if_neg ha]
        exact ih.cons tz

/-- A list with two unequal members has positive population variance. -/
lemma listVar_pos (l : List ℝ) (x y : ℝ) (hx : x ∈ l) (hy : y ∈ l)
    (hne : x ≠ y) : 0 < listVar l := by
  unfold listVar
  have hlpos : 0 < (l.length : ℝ) := by
    have h0 : 0 < l.length := List.length_pos.mpr (List.ne_nil_of_mem hx)
    exact_mod_cast h0
  obtain ⟨z, hz, hzne⟩ : ∃ z ∈ l, z ≠ l.sum / l.length := by
    by_cases hxm : x = l.sum / l.length
    · refine ⟨y, hy, ?_⟩
      exact fun h => hne (hxm.trans h.symm)
    · exact ⟨x, hx, hxm⟩
  have hterm : 0 < (z - l.sum / l.length) ^ 2 :=
    pow_two_pos_of_ne_zero (sub_ne_zero_of_ne hzne)
  have hmem2 : (z - l.sum / l.length) ^ 2 ∈
      l.map fun w => (w - l.sum / l.length) ^ 2 := List.mem_map_of_mem _ hz
  have hnonneg : ∀ b ∈ l.map fun w => (w - l.sum / l.length) ^ 2, (0 : ℝ) ≤ b := by
    intro b hb
    obtain ⟨w, -, rfl⟩ := List.mem_map.mp hb
    positivity
  have hsum : 0 < (l.map fun w => (w - l.sum / l.length) ^ 2).sum :=
    lt_of_lt_of_le hterm (List.single_le_sum hnonneg _ hmem2)
  exact div_pos hsum hlpos

/-- C8 (amended): a decay sample is null exactly when its offset is within
50 ms of note end or its clipped window has under 64 samples; and whenever
at least 3 valid points (non-null with amplitude above 1e-15) exist, the
fitted decay rate is -20 times the OLS slope of log10(amplitude) against
time, rounded to 2 decimals. -/
theorem decay_fit_and_null_condition (meas : ℤ → ℤ → ℝ) (sr : ℝ)
    (audioLen : ℤ) (duration_s : ℝ)
    (h3 : 3 ≤ (validDecayPoints (decayAmps meas sr audioLen duration_s)).length) :
    (∀ t : ℝ, decaySample meas sr audioLen duration_s t = none ↔
      (t ≥ duration_s - 0.05 ∨
        min ⌊(t + 0.100) * sr⌋ audioLen - ⌊t * sr⌋ < 64)) ∧
    decay_rate_dB_s meas sr audioLen duration_s =
      some (pyRound 2 (-20 * olsSlope
        ((validDecayPoints (decayAmps meas sr audioLen duration_s)).map fun p =>
          (p.1, Real.logb 10 p.2)))) := by
  constructor
  · intro t
    by_cases h1 : t ≥ duration_s - 0.05
    · simp [decaySample, h1]
    · by_cases h2 : min ⌊(t + 0.100) * sr⌋ audioLen - ⌊t * sr⌋ < 64
      · simp [decaySample, h1, h2]
      · simp [decaySample, h1, h2]
  · have hfstlen :
        ((validDecayPoints (decayAmps meas sr audioLen duration_s)).map Prod.fst).length =
          (validDecayPoints (decayAmps meas sr audioLen duration_s)).length :=
      List.length_map _ _
    have hzipfst : ((DECAY_TIMES.zip (decayAmps meas sr audioLen duration_s)).map Prod.fst) =
        DECAY_TIMES := by
      apply List.map_fst_zip
      unfold decayAmps
      rw [List.length_map]
    have hsub : ((validDecayPoints (decayAmps meas sr audioLen duration_s)).map Prod.fst).Sublist
        DECAY_TIMES := by
      have h := validPoints_fst_sublist (DECAY_TIMES.zip (decayAmps meas sr audioLen duration_s))
      rw [hzipfst] at h
      exact h
    have hpwD : DECAY_TIMES.Pairwise (· ≠ ·) := by
      unfold DECAY_TIMES
      norm_num
    have hpw : ((validDecayPoints (decayAmps meas sr audioLen duration_s)).map Prod.fst).Pairwise
        (· ≠ ·) := hpwD.sublist hsub
    have hvar : 0 < listVar ((validDecayPoints (decayAmps meas sr audioLen duration_s)).map Prod.fst) := by
      have hlen3 : 3 ≤ ((validDecayPoints (decayAmps meas sr audioLen duration_s)).map Prod.fst).length := by
        rw [hfstlen]
        exact h3
      cases hts : (validDecayPoints (decayAmps meas sr audioLen duration_s)).map Prod.fst with
      | nil => rw [hts] at hlen3; simp at hlen3
      | cons t0 ts1 =>
        cases ts1 with
        | nil => rw [hts] at hlen3; simp at hlen3
        | cons t1 r =>
          rw [hts] at hpw
          have hne01 : t0 ≠ t1 :=
            (List.pairwise_cons.mp hpw).1 t1 (List.mem_cons_self t1 r)
          exact listVar_pos _ t0 t1 (List.mem_cons_self _ _)
            (List.mem_cons_of_mem _ (List.mem_cons_self _ _)) hne01
    unfold decay_rate_dB_s
    rw [if_pos h3, if_pos hvar]

/-- Witness for decay_fit_and_null_condition: constant unit amplitude on a
2 s note yields 6 valid points, and the rate equals the rounded OLS fit. -/
theorem decay_fit_and_null_condition_witness :
    decay_rate_dB_s (fun _ _ => 1) 44100 88200 2 =
      some (pyRound 2 (-20 * olsSlope
        ((validDecayPoints (decayAmps (fun _ _ => 1) 44100 88200 2)).map fun p =>
          (p.1, Real.logb 10 p.2)))) := by
  have hpr : pyRound 8 (1 : ℝ) = 1 := by
    unfold pyRound
    norm_num
  have hamps := decayAmps_const 1
  rw [hpr] at hamps
  have h3 : 3 ≤ (validDecayPoints (decayAmps (fun _ _ => 1) 44100 88200 2)).length := by
    rw [hamps]
    unfold validDecayPoints DECAY_TIMES
    norm_num [List.replicate, List.zip_cons_cons, List.filterMap_cons]
  exact (decay_fit_and_null_condition (fun _ _ => 1) 44100 88200 2 h3).2

/-! ## Temporal sub-score as a sum -/

/-- Contribution of one other note to the temporal penalty, as the source
computes it: both the still-sounding branch and the released branch
subtract only when the relative energy exceeds 0.1. -/
def temporalContribution (target : Note) (window_start_s window_end_s : ℝ)
    (other : Note) : Option ℝ :=
  if other.id = target.id then none
  else if other.source_file ≠ target.source_file then none
  else if other.onset_s < window_end_s ∧ other.offset_s > window_start_s then
    if other.amplitude / max target.amplitude 1e-6 > 0.1 then
      some (0.10 * min (other.amplitude / max target.amplitude 1e-6) 1.0)
    else none
  else if other.offset_s < window_start_s then
    if decay_remaining_amplitude other.midi_note (window_start_s - other.offset_s) *
        other.amplitude / max target.amplitude 1e-6 > 0.1 then
      some (0.10 * min (decay_remaining_amplitude other.midi_note
        (window_start_s - other.offset_s) * other.amplitude /
          max target.amplitude 1e-6) 1.0)
    else none
  else none

/-- Modelled from the spec wording of the temporal sub-score (claim C7):
every still-sounding note subtracts regardless of its relative amplitude,
while a released note subtracts only when its decayed relative energy
exceeds 10 percent. -/
def temporalContributionSpec (target : Note) (window_start_s window_end_s : ℝ)
    (other : Note) : Option ℝ :=
  if other.id = target.id then none
  else if other.source_file ≠ target.source_file then none
  else if other.onset_s < window_end_s ∧ other.offset_s > window_start_s then
    some (0.10 * min (other.amplitude / max target.amplitude 1e-6) 1.0)
  else if other.offset_s < window_start_s then
    if decay_remaining_amplitude other.midi_note (window_start_s - other.offset_s) *
        other.amplitude / max target.amplitude 1e-6 > 0.1 then
      some (0.10 * min (decay_remaining_amplitude other.midi_note
        (window_start_s - other.offset_s) * other.amplitude /
          max target.amplitude 1e-6) 1.0)
    else none
  else none

/-- Temporal sub-score as the spec sentence of claim C7 words it. -/
def score_temporal_spec (target : Note) (all_notes : List Note)
    (window_start_s window_end_s : ℝ) : ℝ :=
  max 0.05 (1.0 -
    (all_notes.filterMap (temporalContributionSpec target window_start_s window_end_s)).sum)

/-- One fold step of score_temporal subtracts exactly the gated
contribution of the visited note. -/
lemma temporalStep_eq (target : Note) (ws we : ℝ) (acc : ℝ) (o : Note) :
    temporalStep target ws we acc o =
      acc - (temporalContribution target ws we o).getD 0 := by
  unfold temporalStep temporalContribution
  by_cases h1 : o.id = target.id
  · simp [h1]
  · by_cases h2 : o.source_file ≠ target.source_file
    · simp [h1, h2]
    · by_cases h3 : o.onset_s < we ∧ o.offset_s > ws
      · by_cases h4 : o.amplitude / max target.amplitude 1e-6 > 0.1
        · simp [h1, h2, h3, h4]
        · simp [h1, h2, h3, h4]
      · by_cases h5 : o.offset_s < ws
        · by_cases h6 : decay_remaining_amplitude o.midi_note (ws - o.offset_s) *
              o.amplitude / max target.amplitude 1e-6 > 0.1
          · simp [h1, h2, h3, h5, h6]
          · simp [h1, h2, h3, h5, h6]
        · simp [h1, h2, h3, h5]

/-- The temporal fold equals the initial value minus the contribution sum. -/
lemma temporal_foldl_eq_sub (target : Note) (ws we : ℝ) :
    ∀ (l : List Note) (init : ℝ),
      l.foldl (temporalStep target ws we) init =
        init - (l.filterMap (temporalContribution target ws we)).sum := by
  intro l
  induction l with
  | nil => intro init; simp
  | cons o t ih =>
    intro init
    simp only [List.foldl_cons, List.filterMap_cons]
    rw [temporalStep_eq]
    cases hc : temporalContribution target ws we o with
    | none =>
      rw [ih]
      simp
    | some c =>
      rw [ih]
      simp only [Option.getD_some, List.sum_cons]
      ring

/-- C7 (amended): the temporal sub-score is 1.0 minus the sum of the gated
contributions (subtracting only when relative energy exceeds 0.1, in the
still-sounding branch just as in the released branch), floored at 0.05. -/
theorem temporal_is_floored_gated_sum (target : Note) (all_notes : List Note)
    (window_start_s window_end_s : ℝ) :
    score_temporal target all_notes window_start_s window_end_s =
      max 0.05 (1.0 -
        (all_notes.filterMap
          (temporalContribution target window_start_s window_end_s)).sum) := by
  unfold score_temporal
  rw [temporal_foldl_eq_sub]

/-- Target note for the temporal counterexample. -/
def cexTarget : Note :=
  { id := "a", onset_s := 0, offset_s := 1, midi_note := 60, amplitude := 1000
    velocity_midi := 80, source_file := "f", source_type := none }

/-- Concurrent quiet note: still sounding during the whole window, with
relative amplitude 0.05, at or below the 0.1 gate. -/
def cexOther : Note :=
  { id := "b", onset_s := 0, offset_s := 1, midi_note := 61, amplitude := 50
    velocity_midi := 80, source_file := "f", source_type := none }

/-- C7 counterexample: a still-sounding note of relative amplitude 0.05
contributes nothing in the source (score stays 1.0), while the claim
formula subtracts 0.10*0.05 and yields 0.995. -/
theorem temporal_gate_counterexample :
    score_temporal cexTarget [cexTarget, cexOther] 0.05 0.8 = 1 ∧
    score_temporal_spec cexTarget [cexTarget, cexOther] 0.05 0.8 = 0.995 ∧
    score_temporal cexTarget [cexTarget, cexOther] 0.05 0.8 ≠
      score_temporal_spec cexTarget [cexTarget, cexOther] 0.05 0.8 := by
  have hmax : max (1000 : ℝ) 1e-6 = 1000 := by norm_num
  have h1 : score_temporal cexTarget [cexTarget, cexOther] 0.05 0.8 = 1 := by
    unfold score_temporal temporalStep cexTarget cexOther
    norm_num [hmax]
  have hba : ("b" : String) ≠ "a" := by decide
  have h2 : score_temporal_spec cexTarget [cexTarget, cexOther] 0.05 0.8 = 0.995 := by
    unfold score_temporal_spec temporalContributionSpec cexTarget cexOther
    norm_num [hmax, hba, List.filterMap_cons, List.filterMap_nil, min_def]
  refine ⟨h1, h2, ?_⟩
  rw [h1, h2]
  norm_num

/-! ## score_notes -/

/-- Scored fields written back onto a note by score_notes (the in-place
dict updates become a record). -/
structure ScoredNote where
  isolation_score : ℝ
  isolation_tier : String
  sub_temporal : ℝ
  sub_collision : ℝ
  sub_dominance : ℝ
  sub_duration : ℝ
  harmonic_mask : List Bool

/-- Analysis window start of score_notes: sustain region 50 ms after onset,
falling back to the whole note when the window would be degenerate. -/
def windowStart (note : Note) : ℝ :=
  if note.onset_s + 0.050 ≥ min (note.onset_s + 0.800) note.offset_s then note.onset_s
  else note.onset_s + 0.050

/-- Analysis window end of score_notes. -/
def windowEnd (note : Note) : ℝ :=
  if note.onset_s + 0.050 ≥ min (note.onset_s + 0.800) note.offset_s then note.offset_s
  else min (note.onset_s + 0.800) note.offset_s

/-- Composite isolation score of one note within its file group, before
rounding — exactly the value score_notes hands to tier_from_score (1.0 on
the ground-truth bypass, 0.0 on the duration veto). -/
def noteComposite (note : Note) (file_notes : List Note) : ℝ :=
  if note.source_type = some "obm_isolated" then 1.0
  else if score_duration (note.offset_s - note.onset_s) = 0 then 0.0
  else
    compute_composite_score
      (score_temporal note file_notes (windowStart note) (windowEnd note))
      (score_harmonic_collision note file_notes (windowStart note) (windowEnd note)).1
      (score_energy_dominance note file_notes (windowStart note) (windowEnd note))
      (score_duration (note.offset_s - note.onset_s))

/-- score_notes body for one note: the OBM bypass stores gold with an
all-true mask; the duration veto stores reject with zeros and an all-false
mask; otherwise the stored score is the composite rounded to 4 decimals
while the tier comes from the unrounded composite. -/
def score_note (note : Note) (file_notes : List Note) : ScoredNote :=
  if note.source_type = some "obm_isolated" then
    { isolation_score := 1.0, isolation_tier := "gold"
      sub_temporal := 1.0, sub_collision := 1.0, sub_dominance := 1.0, sub_duration := 1.0
      harmonic_mask := List.replicate 8 true }
  else if score_duration (note.offset_s - note.onset_s) = 0 then
    { isolation_score := 0.0, isolation_tier := "reject"
      sub_temporal := 0.0, sub_collision := 0.0, sub_dominance := 0.0, sub_duration := 0.0
      harmonic_mask := List.replicate 8 false }
  else
    { isolation_score := pyRound 4 (noteComposite note file_notes)
      isolation_tier := tier_from_score (noteComposite note file_notes)
      sub_temporal := pyRound 4
        (score_temporal note file_notes (windowStart note) (windowEnd note))
      sub_collision := pyRound 4
        (score_harmonic_collision note file_notes (windowStart note) (windowEnd note)).1
      sub_dominance := pyRound 4
        (score_energy_dominance note file_notes (windowStart note) (windowEnd note))
      sub_duration := pyRound 4 (score_duration (note.offset_s - note.onset_s))
      harmonic_mask :=
        (score_harmonic_collision note file_notes (windowStart note) (windowEnd note)).2 }

/-- score_notes from score_isolation.py: each note is scored against the
notes sharing its source file (the by_file grouping preserves order). -/
def score_notes (notes : List Note) : List ScoredNote :=
  notes.map fun n => score_note n (notes.filter fun m => m.source_file = n.source_file)

/-! ## Bounds on the sub-scores and the stored score -/

/-- Every temporal contribution is nonnegative. -/
lemma temporalContribution_nonneg (target : Note) (ws we : ℝ) (o : Note)
    (c : ℝ) (hc : temporalContribution target ws we o = some c) : 0 ≤ c := by
  unfold temporalContribution at hc
  split_ifs at hc with h1 h2 h3 h4 h5 h6
  · injection hc with hc2
    subst hc2
    have hmin : 0 ≤ min (o.amplitude / max target.amplitude 1e-6) 1.0 :=
      le_min (le_of_lt (lt_trans (by norm_num) h4)) (by norm_num)
    linarith
  · injection hc with hc2
    subst hc2
    have hmin : 0 ≤ min (decay_remaining_amplitude o.midi_note (ws - o.offset_s) *
        o.amplitude / max target.amplitude 1e-6) 1.0 :=
      le_min (le_of_lt (lt_trans (by norm_num) h6)) (by norm_num)
    linarith

/-- The temporal sub-score never exceeds 1. -/
lemma score_temporal_le_one (target : Note) (l : List Note) (ws we : ℝ) :
    score_temporal target l ws we ≤ 1 := by
  unfold score_temporal
  rw [temporal_foldl_eq_sub]
  have hsum : 0 ≤ (l.filterMap (temporalContribution target ws we)).sum := by
    apply List.sum_nonneg
    intro c hc
    obtain ⟨o, -, hco⟩ := List.mem_filterMap.mp hc
    exact temporalContribution_nonneg target ws we o c hco
  have h1 : (1.0 : ℝ) - (l.filterMap (temporalContribution target ws we)).sum ≤ 1 := by
    linarith
  exact max_le (by norm_num) h1

/-- The sum of the components a boolean mask picks out of a list of
nonnegative weights is between 0 and the sum of all the weights. -/
lemma pick_sum_bounds :
    ∀ zs : List (ℝ × Bool), (∀ p ∈ zs, 0 ≤ p.1) →
      0 ≤ (zs.filterMap fun p => if p.2 then some p.1 else none).sum ∧
      (zs.filterMap fun p => if p.2 then some p.1 else none).sum ≤
        (zs.map Prod.fst).sum := by
  intro zs
  induction zs with
  | nil => intro _; simp
  | cons z t ih =>
    intro hz
    rcases z with ⟨w, b⟩
    have hw0 : (0 : ℝ) ≤ w := hz (w, b) (List.mem_cons_self _ t)
    have iht := ih fun p hp => hz p (List.mem_cons_of_mem _ hp)
    cases b with
    | false =>
      rw [show (((w, false) :: t).filterMap fun p => if p.2 then some p.1 else none) =
          (t.filterMap fun p => if p.2 then some p.1 else none) by
        rw [List.filterMap_cons_none]
        norm_num]
      rw [List.map_cons, List.sum_cons]
      exact ⟨iht.1, by linarith [iht.2]⟩
    | true =>
      rw [show (((w, true) :: t).filterMap fun p => if p.2 then some p.1 else none) =
          w :: (t.filterMap fun p => if p.2 then some p.1 else none) by
        rw [List.filterMap_cons_some]
        norm_num]
      rw [List.map_cons, List.sum_cons, List.sum_cons]
      exact ⟨by linarith [iht.1], by linarith [iht.2]⟩

/-- The collision sub-score lies in [0, 1]. -/
lemma collision_fst_bounds (target : Note) (l : List Note) (ws we : ℝ) :
    0 ≤ (score_harmonic_collision target l ws we).1 ∧
    (score_harmonic_collision target l ws we).1 ≤ 1 := by
  unfold score_harmonic_collision
  split_ifs with hempty
  · norm_num
  · unfold harmonic_collision_check
    have hz : ∀ p ∈ WEIGHTS.zip (collisionMask (midi_to_freq target.midi_note)
        (concurrentMidis target l ws we)), (0 : ℝ) ≤ p.1 := by
      intro p hp
      have hpw : p.1 ∈ WEIGHTS := List.of_mem_zip hp |>.1
      unfold WEIGHTS at hpw
      simp only [List.mem_cons, List.not_mem_nil, or_false] at hpw
      rcases hpw with h | h | h | h | h | h | h | h <;> rw [h] <;> norm_num
    have hb := pick_sum_bounds (WEIGHTS.zip (collisionMask (midi_to_freq target.midi_note)
      (concurrentMidis target l ws we))) hz
    have hmapfst : (WEIGHTS.zip (collisionMask (midi_to_freq target.midi_note)
        (concurrentMidis target l ws we))).map Prod.fst = WEIGHTS := by
      apply List.map_fst_zip
      unfold WEIGHTS collisionMask
      simp
    rw [hmapfst] at hb
    have hsum : WEIGHTS.sum = 12 := by unfold WEIGHTS; norm_num
    rw [hsum] at hb
    dsimp only
    rw [hsum]
    constructor
    · exact div_nonneg hb.1 (by norm_num)
    · rw [div_le_one (by norm_num : (0:ℝ) < 12)]
      exact hb.2

/-- The per-harmonic mask always has length 8. -/
lemma collision_mask_length (target : Note) (l : List Note) (ws we : ℝ) :
    (score_harmonic_collision target l ws we).2.length = 8 := by
  unfold score_harmonic_collision
  split_ifs with hempty
  · simp
  · unfold harmonic_collision_check collisionMask
    simp

/-- The decay-remainder factor is always positive. -/
lemma decay_remaining_pos (midi t : ℝ) : 0 < decay_remaining_amplitude midi t := by
  unfold decay_remaining_amplitude
  split_ifs with h
  · norm_num
  · exact Real.rpow_pos_of_pos (by norm_num) _

/-- One dominance fold step never decreases the running total when the
visited amplitude is nonnegative. -/
lemma dominanceStep_ge (target : Note) (ws we : ℝ) (acc : ℝ) (o : Note)
    (ho : 0 ≤ o.amplitude) : acc ≤ dominanceStep target ws we acc o := by
  unfold dominanceStep
  split_ifs with h1 h2 h3 h4
  · exact le_refl acc
  · exact le_refl acc
  · linarith
  · have := decay_remaining_pos o.midi_note ((ws + we) / 2 - o.offset_s)
    nlinarith
  · exact le_refl acc

/-- The dominance fold is bounded below by its initial value. -/
lemma dominance_foldl_ge (target : Note) (ws we : ℝ) :
    ∀ (l : List Note), (∀ o ∈ l, 0 ≤ o.amplitude) → ∀ init : ℝ,
      init ≤ l.foldl (dominanceStep target ws we) init := by
  intro l
  induction l with
  | nil => intro _ init; simp
  | cons o t ih =>
    intro hl init
    simp only [List.foldl_cons]
    have h1 : init ≤ dominanceStep target ws we init o :=
      dominanceStep_ge target ws we init o (hl o (List.mem_cons_self o t))
    have h2 := ih (fun x hx => hl x (List.mem_cons_of_mem o hx))
      (dominanceStep target ws we init o)
    exact le_trans h1 h2

/-- The dominance sub-score lies in [0, 1] for nonnegative amplitudes. -/
lemma dominance_bounds (target : Note) (l : List Note) (ws we : ℝ)
    (ht : 0 ≤ target.amplitude) (hl : ∀ o ∈ l, 0 ≤ o.amplitude) :
    0 ≤ score_energy_dominance target l ws we ∧
    score_energy_dominance target l ws we ≤ 1 := by
  unfold score_energy_dominance
  split_ifs with hsm
  · norm_num
  · push_neg at hsm
    have htot : target.amplitude ≤ l.foldl (dominanceStep target ws we) target.amplitude :=
      dominance_foldl_ge target ws we l hl target.amplitude
    have hpos : (0 : ℝ) < l.foldl (dominanceStep target ws we) target.amplitude :=
      lt_of_lt_of_le (by norm_num) hsm
    exact ⟨div_nonneg ht (le_of_lt hpos), (div_le_one hpos).mpr htot⟩

/-- The duration sub-score lies in [0, 1]. -/
lemma duration_bounds (d : ℝ) : 0 ≤ score_duration d ∧ score_duration d ≤ 1 := by
  unfold score_duration
  split_ifs <;> norm_num

/-- The composite lies in [0, 1] when every sub-score does. -/
lemma composite_bounds (t c d u : ℝ) (htle : t ≤ 1) (hc0 : 0 ≤ c) (hc1 : c ≤ 1)
    (hd1 : d ≤ 1) (hu1 : u ≤ 1) :
    0 ≤ compute_composite_score t c d u ∧ compute_composite_score t c d u ≤ 1 := by
  unfold compute_composite_score
  split_ifs with hveto
  · norm_num
  · push_neg at hveto
    refine ⟨le_of_lt (Real.exp_pos _), ?_⟩
    rw [Real.exp_le_one_iff]
    have hlogc : Real.log c ≤ 0 := Real.log_nonpos hc0 hc1
    have hlogt : Real.log (max t 0.05) ≤ 0 :=
      Real.log_nonpos (le_trans (by norm_num) (le_max_right t 0.05))
        (max_le htle (by norm_num))
    have hlogd : Real.log (max d 0.05) ≤ 0 :=
      Real.log_nonpos (le_trans (by norm_num) (le_max_right d 0.05))
        (max_le hd1 (by norm_num))
    have hlogu : Real.log u ≤ 0 := Real.log_nonpos (le_of_lt hveto.2) hu1
    linarith

/-- Python rounding keeps a value of [0, 1] inside [0, 1]. -/
lemma pyRound_bounds (nd : ℕ) (x : ℝ) (h0 : 0 ≤ x) (h1 : x ≤ 1) :
    0 ≤ pyRound nd x ∧ pyRound nd x ≤ 1 := by
  unfold pyRound
  have hpow : (0 : ℝ) < 10 ^ nd := by positivity
  constructor
  · apply div_nonneg _ (le_of_lt hpow)
    have hr : (0 : ℤ) ≤ round (x * 10 ^ nd) := by
      rw [round_eq]
      apply Int.floor_nonneg.mpr
      positivity
    exact_mod_cast hr
  · rw [div_le_one hpow]
    have hr : round (x * 10 ^ nd) ≤ (10 : ℤ) ^ nd := by
      rw [round_eq]
      have hlt : ⌊x * 10 ^ nd + 1 / 2⌋ < (10 : ℤ) ^ nd + 1 := by
        apply Int.floor_lt.mpr
        push_cast
        nlinarith
      exact Int.lt_add_one_iff.mp hlt
    calc ((round (x * 10 ^ nd) : ℤ) : ℝ) ≤ (((10 : ℤ) ^ nd : ℤ) : ℝ) := by exact_mod_cast hr
      _ = 10 ^ nd := by push_cast; ring

/-! ## Collision geometry of two notes one semitone apart -/

/-- The twelfth of an octave, raised to the 12th power, is the octave. -/
lemma two_rpow_twelfth_pow : ((2 : ℝ) ^ ((1 : ℝ) / 12 : ℝ)) ^ (12 : ℕ) = 2 := by
  rw [← Real.rpow_natCast ((2 : ℝ) ^ ((1 : ℝ) / 12 : ℝ)) 12,
    ← Real.rpow_mul (by norm_num : (0 : ℝ) ≤ 2)]
  norm_num

/-- The eighth of an octave, raised to the 8th power, is the octave. -/
lemma two_rpow_eighth_pow : ((2 : ℝ) ^ ((1 : ℝ) / 8 : ℝ)) ^ (8 : ℕ) = 2 := by
  rw [← Real.rpow_natCast ((2 : ℝ) ^ ((1 : ℝ) / 8 : ℝ)) 8,
    ← Real.rpow_mul (by norm_num : (0 : ℝ) ≤ 2)]
  norm_num

/-- A semitone ratio is under 8/7. -/
lemma semitone_lt_8_7 : (2 : ℝ) ^ ((1 : ℝ) / 12 : ℝ) < 8 / 7 := by
  have hcpos : 0 < (2 : ℝ) ^ ((1 : ℝ) / 12 : ℝ) := Real.rpow_pos_of_pos (by norm_num) _
  by_contra hcon
  push_neg at hcon
  have hpow : ((8 : ℝ) / 7) ^ (12 : ℕ) ≤ ((2 : ℝ) ^ ((1 : ℝ) / 12 : ℝ)) ^ (12 : ℕ) :=
    pow_le_pow_left (by norm_num) hcon 12
  rw [two_rpow_twelfth_pow] at hpow
  norm_num at hpow

/-- An eighth of an octave is at most 8/7. -/
lemma eighth_le_8_7 : (2 : ℝ) ^ ((1 : ℝ) / 8 : ℝ) ≤ 8 / 7 := by
  have hcpos : 0 < (2 : ℝ) ^ ((1 : ℝ) / 8 : ℝ) := Real.rpow_pos_of_pos (by norm_num) _
  apply le_of_pow_le_pow_left (by norm_num : (8 : ℕ) ≠ 0) (by norm_num)
  rw [two_rpow_eighth_pow]
  norm_num

/-- No harmonic pair of two notes one semitone apart, with harmonic numbers
a and b between 1 and 8, falls within the 50-cent collision window. -/
lemma no_collide (a b : ℝ) (ha1 : 1 ≤ a) (ha8 : a ≤ 8) (hb1 : 1 ≤ b) (hb8 : b ≤ 8)
    (hint : a ≤ b ∨ b + 1 ≤ a) :
    ¬ collides (440 * a) (440 * ((2 : ℝ) ^ ((1 : ℝ) / 12 : ℝ)) * b) := by
  have hcpos : 0 < (2 : ℝ) ^ ((1 : ℝ) / 12 : ℝ) := Real.rpow_pos_of_pos (by norm_num) _
  have hc1 : 1 < (2 : ℝ) ^ ((1 : ℝ) / 12 : ℝ) :=
    (Real.one_lt_rpow_iff_of_pos (by norm_num)).mpr (Or.inl ⟨by norm_num, by norm_num⟩)
  have hthrpos : 0 < (2 : ℝ) ^ ((50 : ℝ) / 1200 : ℝ) := Real.rpow_pos_of_pos (by norm_num) _
  unfold collides
  rcases hint with hba | hab
  · -- the other harmonic is at least as high: the ratio is at least a semitone
    have hle : 440 * a ≤ 440 * ((2 : ℝ) ^ ((1 : ℝ) / 12 : ℝ)) * b := by nlinarith
    have hf1pos : (0 : ℝ) < 440 * a := by linarith
    rw [max_eq_right hle, min_eq_left hle, max_eq_left (by nlinarith : (1e-6 : ℝ) ≤ 440 * a)]
    rw [not_lt, le_div_iff hf1pos]
    have hthrle : (2 : ℝ) ^ ((50 : ℝ) / 1200 : ℝ) ≤ (2 : ℝ) ^ ((1 : ℝ) / 12 : ℝ) :=
      (Real.rpow_le_rpow_left_iff (by norm_num : (1 : ℝ) < 2)).mpr (by norm_num)
    nlinarith
  · -- the other harmonic is strictly lower: the inverted ratio exceeds 50 cents
    have hb7 : b ≤ 7 := by linarith
    have h87b : (8 : ℝ) / 7 * b ≤ a := by nlinarith
    have hcb : ((2 : ℝ) ^ ((1 : ℝ) / 12 : ℝ)) * b < a := by
      have h1 : ((2 : ℝ) ^ ((1 : ℝ) / 12 : ℝ)) * b < 8 / 7 * b := by
        apply mul_lt_mul_of_pos_right semitone_lt_8_7
        linarith
      linarith
    have hlt : 440 * ((2 : ℝ) ^ ((1 : ℝ) / 12 : ℝ)) * b < 440 * a := by nlinarith
    have hf2pos : (0 : ℝ) < 440 * ((2 : ℝ) ^ ((1 : ℝ) / 12 : ℝ)) * b := by nlinarith
    rw [max_eq_left (le_of_lt hlt), min_eq_right (le_of_lt hlt),
      max_eq_left (by nlinarith : (1e-6 : ℝ) ≤ 440 * ((2 : ℝ) ^ ((1 : ℝ) / 12 : ℝ)) * b)]
    rw [not_lt, le_div_iff hf2pos]
    have hthrc : (2 : ℝ) ^ ((50 : ℝ) / 1200 : ℝ) * ((2 : ℝ) ^ ((1 : ℝ) / 12 : ℝ)) =
        (2 : ℝ) ^ ((1 : ℝ) / 8 : ℝ) := by
      rw [← Real.rpow_add (by norm_num : (0 : ℝ) < 2)]
      norm_num
    -- reduce to (2^(1/8)) * b ≤ a via 2^(1/8) ≤ 8/7 and (8/7) * b ≤ a
    have hkey : (2 : ℝ) ^ ((50 : ℝ) / 1200 : ℝ) * (440 * ((2 : ℝ) ^ ((1 : ℝ) / 12 : ℝ)) * b) =
        440 * ((2 : ℝ) ^ ((1 : ℝ) / 8 : ℝ) * b) := by
      rw [← hthrc]
      ring
    rw [hkey]
    have h8b : (2 : ℝ) ^ ((1 : ℝ) / 8 : ℝ) * b ≤ 8 / 7 * b := by
      apply mul_le_mul_of_nonneg_right eighth_le_8_7
      linarith
    nlinarith

/-- Every harmonic of a MIDI-69 note is clean against a concurrent MIDI-70
note (one semitone apart, harmonics 1..8). -/
lemma clean_69_70 (h : ℕ) (hh : h < 8) :
    harmonicClean (midi_to_freq 69) [(70 : ℝ)] h := by
  have h69 : midi_to_freq 69 = 440 := by
    unfold midi_to_freq
    norm_num
  have h70 : midi_to_freq 70 = 440 * (2 : ℝ) ^ ((1 : ℝ) / 12 : ℝ) := by
    unfold midi_to_freq
    norm_num
  intro m hm k hk
  rw [List.mem_singleton] at hm
  subst hm
  rw [List.mem_range] at hk
  rw [h69, h70]
  have hcast1 : (1 : ℝ) ≤ (h : ℝ) + 1 := by
    have : (0 : ℝ) ≤ (h : ℝ) := Nat.cast_nonneg h
    linarith
  have hcast8 : (h : ℝ) + 1 ≤ 8 := by
    have : (h : ℝ) ≤ 7 := by exact_mod_cast Nat.lt_succ_iff.mp hh
    linarith
  have hcast1k : (1 : ℝ) ≤ (k : ℝ) + 1 := by
    have : (0 : ℝ) ≤ (k : ℝ) := Nat.cast_nonneg k
    linarith
  have hcast8k : (k : ℝ) + 1 ≤ 8 := by
    have : (k : ℝ) ≤ 7 := by exact_mod_cast Nat.lt_succ_iff.mp hk
    linarith
  apply no_collide ((h : ℝ) + 1) ((k : ℝ) + 1) hcast1 hcast8 hcast1k hcast8k
  rcases le_or_lt h k with hle | hlt
  · left
    have : (h : ℝ) ≤ (k : ℝ) := by exact_mod_cast hle
    linarith
  · right
    have : (k : ℝ) + 1 ≤ (h : ℝ) := by exact_mod_cast hlt
    linarith

/-! ## A note pair whose composite rounds across the gold threshold -/

/-- Target note of the rounding counterexample: MIDI 69, amplitude 10000,
one second long. -/
def cexRound : Note :=
  { id := "p", onset_s := 0, offset_s := 1, midi_note := 69, amplitude := 10000
    velocity_midi := 80, source_file := "g", source_type := none }

/-- Concurrent louder note one semitone up: amplitude 10289 tuned so the
composite lands just below 0.85 while rounding to 0.85. -/
def cexLoud : Note :=
  { id := "q", onset_s := 0, offset_s := 1, midi_note := 70, amplitude := 10289
    velocity_midi := 80, source_file := "g", source_type := none }

/-- The concurrency filter of score_harmonic_collision, instantiated at the
counterexample target and window. -/
def cexFilter (other : Note) : Option ℝ :=
  if other.id = cexRound.id then none
  else if other.source_file ≠ cexRound.source_file then none
  else if hasEnergy other 0.05 0.8 then some other.midi_note
  else none

/-- The concurrent-midi list of the pair is exactly the MIDI-70 note. -/
lemma cex_concurrent :
    concurrentMidis cexRound [cexRound, cexLoud] 0.05 0.8 = [(70 : ℝ)] := by
  have h1 : cexFilter cexRound = none := by
    unfold cexFilter
    simp [cexRound]
  have he : hasEnergy cexLoud 0.05 0.8 := by
    apply Or.inl
    constructor
    · show cexLoud.onset_s < 0.8
      unfold cexLoud
      norm_num
    · show cexLoud.offset_s > 0.05
      unfold cexLoud
      norm_num
  have h2 : cexFilter cexLoud = some 70 := by
    have hid : ¬ (cexLoud.id = cexRound.id) := by simp [cexLoud, cexRound]
    have hsf : ¬ (cexLoud.source_file ≠ cexRound.source_file) := by
      simp [cexLoud, cexRound]
    unfold cexFilter
    rw [if_neg hid, if_neg hsf, if_pos he]
    show some cexLoud.midi_note = some 70
    unfold cexLoud
    norm_num
  show List.filterMap cexFilter [cexRound, cexLoud] = [(70 : ℝ)]
  rw [List.filterMap_cons_none h1, List.filterMap_cons_some h2, List.filterMap_nil]

/-- Against the single MIDI-70 concurrent note, all 8 harmonics are clean. -/
lemma cex_mask_all_true :
    collisionMask (midi_to_freq cexRound.midi_note) [(70 : ℝ)] = List.replicate 8 true := by
  have hmn : cexRound.midi_note = 69 := rfl
  rw [hmn]
  unfold collisionMask
  apply List.eq_replicate_iff.mpr
  constructor
  · simp
  · intro b hb
    obtain ⟨h, hhr, rfl⟩ := List.mem_map.mp hb
    rw [List.mem_range] at hhr
    exact decide_eq_true (clean_69_70 h hhr)

/-- The collision sub-score of the pair is exactly 1. -/
lemma cex_collision :
    (score_harmonic_collision cexRound [cexRound, cexLoud] 0.05 0.8).1 = 1 := by
  unfold score_harmonic_collision
  rw [cex_concurrent]
  rw [if_neg (by simp : ¬ ([(70 : ℝ)] = []))]
  unfold harmonic_collision_check
  rw [cex_mask_all_true]
  unfold WEIGHTS
  norm_num [List.replicate, List.zip_cons_cons, List.filterMap_cons]

/-- The temporal sub-score of the pair is 0.9: the louder concurrent note
subtracts the capped penalty 0.1. -/
lemma cex_temporal :
    score_temporal cexRound [cexRound, cexLoud] 0.05 0.8 = 0.9 := by
  have hmax : max (10000 : ℝ) 1e-6 = 10000 := by norm_num
  have hqp : ("q" : String) ≠ "p" := by decide
  unfold score_temporal temporalStep cexRound cexLoud
  norm_num [hmax, hqp, min_def, max_def]

/-- The dominance sub-score of the pair is 10000/20289. -/
lemma cex_dominance :
    score_energy_dominance cexRound [cexRound, cexLoud] 0.05 0.8 = 10000 / 20289 := by
  have hqp : ("q" : String) ≠ "p" := by decide
  unfold score_energy_dominance dominanceStep cexRound cexLoud
  norm_num [hqp]

/-- The duration sub-score of the one-second target is 1. -/
lemma cex_duration :
    score_duration (cexRound.offset_s - cexRound.onset_s) = 1 := by
  unfold cexRound score_duration
  norm_num

/-- The scoring window of the target is the sustain region 0.05 to 0.8. -/
lemma cex_window :
    windowStart cexRound = 0.05 ∧ windowEnd cexRound = 0.8 := by
  unfold windowStart windowEnd cexRound
  norm_num

/-- The unrounded composite of the pair in closed form. -/
lemma cex_composite :
    noteComposite cexRound [cexRound, cexLoud] =
      Real.exp (0.2 * Real.log (9000 / 20289)) := by
  have hobm : ¬ (cexRound.source_type = some "obm_isolated") := by
    simp [cexRound]
  have hdur : ¬ (score_duration (cexRound.offset_s - cexRound.onset_s) = 0) := by
    rw [cex_duration]
    norm_num
  unfold noteComposite
  rw [if_neg hobm, if_neg hdur]
  rw [cex_window.1, cex_window.2, cex_temporal, cex_collision, cex_dominance, cex_duration]
  unfold compute_composite_score
  rw [if_neg (by norm_num)]
  rw [Real.log_one]
  rw [max_eq_left (by norm_num : (0.05 : ℝ) ≤ 0.9)]
  rw [max_eq_left (by norm_num : (0.05 : ℝ) ≤ 10000 / 20289)]
  have hcombine : 0.35 * (0 : ℝ) + 0.20 * Real.log 0.9 + 0.20 * Real.log (10000 / 20289) +
      0.25 * 0 = 0.2 * (Real.log 0.9 + Real.log (10000 / 20289)) := by ring
  rw [hcombine, ← Real.log_mul (by norm_num) (by norm_num)]
  norm_num

/-- The composite of the pair lies in [0.84995, 0.85): strictly below the
gold threshold, but rounding to 4 decimals lands exactly on 0.85. -/
lemma cex_bracket :
    0.84995 ≤ noteComposite cexRound [cexRound, cexLoud] ∧
    noteComposite cexRound [cexRound, cexLoud] < 0.85 := by
  have hr : (0 : ℝ) < 9000 / 20289 := by norm_num
  have hpow5 : (noteComposite cexRound [cexRound, cexLoud]) ^ (5 : ℕ) = 9000 / 20289 := by
    rw [cex_composite, ← Real.exp_nat_mul]
    have h5 : (5 : ℕ) * (0.2 * Real.log (9000 / 20289)) = Real.log (9000 / 20289) := by
      push_cast
      ring
    rw [h5, Real.exp_log hr]
  have hcpos : (0 : ℝ) < noteComposite cexRound [cexRound, cexLoud] := by
    rw [cex_composite]
    exact Real.exp_pos _
  constructor
  · apply le_of_pow_le_pow_left (by norm_num : (5 : ℕ) ≠ 0) (le_of_lt hcpos)
    rw [hpow5]
    norm_num
  · have h5lt : (noteComposite cexRound [cexRound, cexLoud]) ^ (5 : ℕ) < (0.85 : ℝ) ^ (5 : ℕ) := by
      rw [hpow5]
      norm_num
    exact lt_of_pow_lt_pow_left 5 (by norm_num) h5lt

/-- The stored tier of the target is silver. -/
lemma cex_tier :
    (score_note cexRound [cexRound, cexLoud]).isolation_tier = "silver" := by
  have hobm : ¬ (cexRound.source_type = some "obm_isolated") := by
    simp [cexRound]
  have hdur : ¬ (score_duration (cexRound.offset_s - cexRound.onset_s) = 0) := by
    rw [cex_duration]
    norm_num
  unfold score_note
  rw [if_neg hobm, if_neg hdur]
  show tier_from_score (noteComposite cexRound [cexRound, cexLoud]) = "silver"
  unfold tier_from_score
  rw [if_neg (not_le.mpr cex_bracket.2)]
  rw [if_pos (by linarith [cex_bracket.1] : noteComposite cexRound [cexRound, cexLoud] ≥ 0.55)]

/-- The stored isolation score of the target rounds to exactly 0.85. -/
lemma cex_score :
    (score_note cexRound [cexRound, cexLoud]).isolation_score = 0.85 := by
  have hobm : ¬ (cexRound.source_type = some "obm_isolated") := by
    simp [cexRound]
  have hdur : ¬ (score_duration (cexRound.offset_s - cexRound.onset_s) = 0) := by
    rw [cex_duration]
    norm_num
  unfold score_note
  rw [if_neg hobm, if_neg hdur]
  show pyRound 4 (noteComposite cexRound [cexRound, cexLoud]) = 0.85
  unfold pyRound
  have hround : round (noteComposite cexRound [cexRound, cexLoud] * 10 ^ 4) = 8500 := by
    rw [round_eq]
    apply Int.floor_eq_iff.mpr
    constructor
    · push_cast
      nlinarith [cex_bracket.1]
    · push_cast
      nlinarith [cex_bracket.2]
  rw [hround]
  norm_num

/-- C6 counterexample: in the scored output of the pair, the stored tier is
silver while the threshold mapping applied to the stored (4-decimal
rounded) isolation score yields gold — the two disagree because the tier is
computed from the unrounded composite. -/
theorem tier_vs_rounded_score_counterexample :
    score_note cexRound [cexRound, cexLoud] ∈ score_notes [cexRound, cexLoud] ∧
    (score_note cexRound [cexRound, cexLoud]).isolation_tier = "silver" ∧
    tier_from_score (score_note cexRound [cexRound, cexLoud]).isolation_score = "gold" ∧
    (score_note cexRound [cexRound, cexLoud]).isolation_tier ≠
      tier_from_score (score_note cexRound [cexRound, cexLoud]).isolation_score := by
  have hfilter : ([cexRound, cexLoud].filter fun m => m.source_file = cexRound.source_file) =
      [cexRound, cexLoud] := by
    simp [cexRound, cexLoud]
  have hgold : tier_from_score (score_note cexRound [cexRound, cexLoud]).isolation_score =
      "gold" := by
    rw [cex_score]
    unfold tier_from_score
    rw [if_pos (by norm_num : (0.85 : ℝ) ≥ 0.85)]
  refine ⟨?_, cex_tier, hgold, ?_⟩
  · unfold score_notes
    apply List.mem_map.mpr
    refine ⟨cexRound, List.mem_cons_self _ _, ?_⟩
    rw [hfilter]
  · rw [cex_tier, hgold]
    simp

/-- C6 (amended): for every scored note, the harmonic mask has length 8;
with nonnegative amplitudes the stored isolation score lies in [0, 1]; and
the stored tier equals the threshold mapping applied to the unrounded
composite (the stored score is that composite rounded to 4 decimals, which
can cross a threshold the unrounded value did not reach). -/
theorem scored_note_invariants (notes : List Note)
    (hamp : ∀ n ∈ notes, 0 ≤ n.amplitude) (sn : ScoredNote)
    (hmem : sn ∈ score_notes notes) :
    sn.harmonic_mask.length = 8 ∧
    (0 ≤ sn.isolation_score ∧ sn.isolation_score ≤ 1) ∧
    (∃ n ∈ notes,
      sn = score_note n (notes.filter fun m => m.source_file = n.source_file) ∧
      sn.isolation_tier =
        tier_from_score (noteComposite n (notes.filter fun m => m.source_file = n.source_file))) := by
  unfold score_notes at hmem
  rw [List.mem_map] at hmem
  obtain ⟨n, hn, heq⟩ := hmem
  subst heq
  have hfsub : ∀ o ∈ (notes.filter fun m => m.source_file = n.source_file),
      0 ≤ o.amplitude := fun o ho => hamp o (List.mem_of_mem_filter ho)
  have hnamp : 0 ≤ n.amplitude := hamp n hn
  by_cases hobm : n.source_type = some "obm_isolated"
  · have hsnote : score_note n (notes.filter fun m => m.source_file = n.source_file) =
        { isolation_score := 1.0, isolation_tier := "gold"
          sub_temporal := 1.0, sub_collision := 1.0, sub_dominance := 1.0
          sub_duration := 1.0, harmonic_mask := List.replicate 8 true } := by
      unfold score_note
      rw [if_pos hobm]
    have hcomp : noteComposite n (notes.filter fun m => m.source_file = n.source_file) = 1.0 := by
      unfold noteComposite
      rw [if_pos hobm]
    rw [hsnote]
    refine ⟨by simp, ⟨by norm_num, by norm_num⟩, n, hn, hsnote.symm ▸ rfl, ?_⟩
    rw [hcomp]
    unfold tier_from_score
    rw [if_pos (by norm_num : (1.0 : ℝ) ≥ 0.85)]
  · by_cases hdur : score_duration (n.offset_s - n.onset_s) = 0
    · have hsnote : score_note n (notes.filter fun m => m.source_file = n.source_file) =
          { isolation_score := 0.0, isolation_tier := "reject"
            sub_temporal := 0.0, sub_collision := 0.0, sub_dominance := 0.0
            sub_duration := 0.0, harmonic_mask := List.replicate 8 false } := by
        unfold score_note
        rw [if_neg hobm, if_pos hdur]
      have hcomp : noteComposite n (notes.filter fun m => m.source_file = n.source_file) = 0.0 := by
        unfold noteComposite
        rw [if_neg hobm, if_pos hdur]
      rw [hsnote]
      refine ⟨by simp, ⟨by norm_num, by norm_num⟩, n, hn, hsnote.symm ▸ rfl, ?_⟩
      rw [hcomp]
      unfold tier_from_score
      rw [if_neg (by norm_num : ¬ ((0.0 : ℝ) ≥ 0.85)),
        if_neg (by norm_num : ¬ ((0.0 : ℝ) ≥ 0.55)),
        if_neg (by norm_num : ¬ ((0.0 : ℝ) ≥ 0.15))]
    · have hsnote : score_note n (notes.filter fun m => m.source_file = n.source_file) =
          { isolation_score := pyRound 4
              (noteComposite n (notes.filter fun m => m.source_file = n.source_file))
            isolation_tier := tier_from_score
              (noteComposite n (notes.filter fun m => m.source_file = n.source_file))
            sub_temporal := pyRound 4 (score_temporal n
              (notes.filter fun m => m.source_file = n.source_file) (windowStart n) (windowEnd n))
            sub_collision := pyRound 4 (score_harmonic_collision n
              (notes.filter fun m => m.source_file = n.source_file)
              (windowStart n) (windowEnd n)).1
            sub_dominance := pyRound 4 (score_energy_dominance n
              (notes.filter fun m => m.source_file = n.source_file) (windowStart n) (windowEnd n))
            sub_duration := pyRound 4 (score_duration (n.offset_s - n.onset_s))
            harmonic_mask := (score_harmonic_collision n
              (notes.filter fun m => m.source_file = n.source_file)
              (windowStart n) (windowEnd n)).2 } := by
        unfold score_note
        rw [if_neg hobm, if_neg hdur]
      have hcompeq : noteComposite n (notes.filter fun m => m.source_file = n.source_file) =
          compute_composite_score
            (score_temporal n (notes.filter fun m => m.source_file = n.source_file)
              (windowStart n) (windowEnd n))
            (score_harmonic_collision n (notes.filter fun m => m.source_file = n.source_file)
              (windowStart n) (windowEnd n)).1
            (score_energy_dominance n (notes.filter fun m => m.source_file = n.source_file)
              (windowStart n) (windowEnd n))
            (score_duration (n.offset_s - n.onset_s)) := by
        unfold noteComposite
        rw [if_neg hobm, if_neg hdur]
      have hcompbounds :
          0 ≤ noteComposite n (notes.filter fun m => m.source_file = n.source_file) ∧
          noteComposite n (notes.filter fun m => m.source_file = n.source_file) ≤ 1 := by
        rw [hcompeq]
        apply composite_bounds
        · exact score_temporal_le_one n _ (windowStart n) (windowEnd n)
        · exact (collision_fst_bounds n _ (windowStart n) (windowEnd n)).1
        · exact (collision_fst_bounds n _ (windowStart n) (windowEnd n)).2
        · exact (dominance_bounds n _ (windowStart n) (windowEnd n) hnamp hfsub).2
        · exact (duration_bounds _).2
      rw [hsnote]
      refine ⟨?_, ?_, n, hn, hsnote.symm ▸ rfl, ?_⟩
      · exact collision_mask_length n _ (windowStart n) (windowEnd n)
      · exact (pyRound_bounds 4 _ hcompbounds.1 hcompbounds.2)
      · rfl

/-- Witness for scored_note_invariants at a single isolated note. -/
theorem scored_note_invariants_witness :
    (score_note cexTarget ([cexTarget].filter fun m => m.source_file = cexTarget.source_file)).harmonic_mask.length = 8 ∧
    (0 ≤ (score_note cexTarget ([cexTarget].filter fun m => m.source_file = cexTarget.source_file)).isolation_score ∧
      (score_note cexTarget ([cexTarget].filter fun m => m.source_file = cexTarget.source_file)).isolation_score ≤ 1) ∧
    (∃ n ∈ [cexTarget],
      score_note cexTarget ([cexTarget].filter fun m => m.source_file = cexTarget.source_file) =
        score_note n ([cexTarget].filter fun m => m.source_file = n.source_file) ∧
      (score_note cexTarget ([cexTarget].filter fun m => m.source_file = cexTarget.source_file)).isolation_tier =
        tier_from_score (noteComposite n ([cexTarget].filter fun m => m.source_file = n.source_file))) := by
  apply scored_note_invariants [cexTarget]
  · intro n hn
    rw [List.mem_singleton] at hn
    subst hn
    show (0 : ℝ) ≤ cexTarget.amplitude
    unfold cexTarget
    norm_num
  · unfold score_notes
    apply List.mem_map.mpr
    exact ⟨cexTarget, List.mem_cons_self _ _, rfl⟩

end

end Wurli
